import Mathlib

/-!
# MultiVariant_Recursive_Visitor: dispatch over sum-typed values

A shallow embedding of `src/main.cpp` (and of the copy of it that opens
`src/tests/multi_dispatch_tests.cpp`).

The C++ source is template code: every function below is generic in the static
types of its arguments, and `if constexpr` branches on those types.  The
embedding represents a C++ value by a tagged value `Val` whose tag is its static
type `Ty`, so that a template instantiated at the types `Args...` and run on the
values `args...` becomes one Lean function of `args`, branching on
`args.map Val.typeOf`.

* A call the compiler would reject is the outcome `Outcome.illFormed`.
* A C++ exception is the outcome `Outcome.raise`.
* Captured mutable state of a handler (`[&counter]`, `call_count++`) is a state
  `σ` threaded through every call, so that the end state of a call shows which
  handlers ran.
* `std::is_invocable_v`, the implicit conversions and overload resolution belong
  to the C++ language and library, not to the repository; they are modelled on
  the types listed in `Ty`.  References and value categories are not
  represented: a parameter `T x`, `const T& x`, `auto x` or `auto&& x` is bound
  to the (converted) argument value.  Where the constituents of an `overloaded`
  object are ranked against each other, the parameters represented are those
  taken by value or by reference to const (see `Param`).
-/

namespace MultiVariant

/-! ## Values and their static types -/

/-- Static types occurring in `main.cpp` and in the tests: the arithmetic types
`int`, `double`, `char`, `bool`; a string literal (`cstr`, which decays to
`const char*`), `std::string`; the aggregates `struct A { int value; }`,
`struct B { double value; }`, `struct C { char value; }`,
`struct D { std::string value; }`; `std::nullopt_t`, `std::optional<int>` and
`void`. -/
inductive Ty
  | int | double | char | bool | cstr | string | A | B | C | D
  | nullopt_t | optionalInt | void
  deriving DecidableEq, Repr

/-- A C++ value together with its static type.  An `int` payload is the integer
it denotes and a `double` payload the rational number it denotes (overflow and
floating-point rounding are outside the model). -/
inductive Val
  | int (i : Int)
  | double (q : ℚ)
  | char (c : Char)
  | bool (b : Bool)
  | cstr (s : String)
  | string (s : String)
  | A (value : Int)
  | B (value : ℚ)
  | C (value : Char)
  | D (value : String)
  | nullopt
  | optionalInt (o : Option Int)
  | void
  deriving DecidableEq

/-- The static type of a value. -/
def Val.typeOf : Val → Ty
  | .int _ => .int
  | .double _ => .double
  | .char _ => .char
  | .bool _ => .bool
  | .cstr _ => .cstr
  | .string _ => .string
  | .A _ => .A
  | .B _ => .B
  | .C _ => .C
  | .D _ => .D
  | .nullopt => .nullopt_t
  | .optionalInt _ => .optionalInt
  | .void => .void

/-- What a call produces: a returned value, a thrown exception, or nothing at
all because the compiler rejects the call. -/
inductive Outcome
  | ret (v : Val)
  | raise (e : String)
  | illFormed
  deriving DecidableEq

/-- A value that signals absence: `std::nullopt` or an empty
`std::optional<int>`. -/
def Val.isAbsent : Val → Bool
  | .nullopt => true
  | .optionalInt none => true
  | _ => false

/-- A non-empty `std::optional<int>`. -/
def Val.isPresentOptional : Val → Bool
  | .optionalInt (some _) => true
  | _ => false

/-! ## Implicit conversions (the part of the C++ language the source relies on) -/

/-- The arithmetic types. -/
def Ty.isArithmetic : Ty → Bool
  | .int | .double | .char | .bool => true
  | _ => false

/-- Rank of the implicit conversion sequence from an argument of type `a` to a
parameter of type `p` ([over.ics.rank]): `0` exact match, `1` promotion
(`char → int`, `bool → int`), `2` conversion (the other arithmetic conversions,
pointer to `bool`), `3` user-defined conversion (`const char* → std::string`,
`std::nullopt_t → std::optional<int>`, arithmetic `→ std::optional<int>`);
`none` when there is no implicit conversion. -/
def conversionRank (a p : Ty) : Option Nat :=
  if a = p then some 0
  else
    match a, p with
    | .char, .int => some 1
    | .bool, .int => some 1
    | .cstr, .bool => some 2
    | .cstr, .string => some 3
    | .nullopt_t, .optionalInt => some 3
    | a, .optionalInt => if a.isArithmetic then some 3 else none
    | a, p => if a.isArithmetic && p.isArithmetic then some 2 else none

/-- The conversion `static_cast<int>(d)` of a `double`: truncation toward zero. -/
def truncToInt (q : ℚ) : Int := Int.tdiv q.num q.den

/-- The number denoted by an arithmetic value. -/
def Val.toNum : Val → Option ℚ
  | .int i => some i
  | .double q => some q
  | .char c => some c.toNat
  | .bool b => some (if b then 1 else 0)
  | _ => none

/-- The arithmetic value of type `p` a number converts to. -/
def fromNum : Ty → ℚ → Option Val
  | .int, q => some (.int (truncToInt q))
  | .double, q => some (.double q)
  | .char, q => some (.char (Char.ofNat (truncToInt q % 256).toNat))
  | .bool, q => some (.bool (q != 0))
  | _, _ => none

/-- The value a parameter of type `p` is initialised with from the argument
`v`; `none` when `v` does not convert implicitly to `p`. -/
def convert (p : Ty) (v : Val) : Option Val :=
  if v.typeOf = p then some v
  else
    match v, p with
    | .cstr _, .bool => some (.bool true)
    | .cstr s, .string => some (.string s)
    | .nullopt, .optionalInt => some (.optionalInt none)
    | v, .optionalInt => v.toNum.map (fun q => .optionalInt (some (truncToInt q)))
    | v, p => v.toNum.bind (fromNum p)

/-! ## Handlers -/

/-- A callable as the engines see it: `invocable tys` is
`std::is_invocable_v<F, tys...>`, `returns tys` is the static type of the call expression
for arguments of the types `tys` (`std::invoke_result_t<F, tys...>`, of use only where the
callable is invocable), and `call args s` runs it on `args` in the captured state `s`. -/
structure Handler (σ : Type) where
  invocable : List Ty → Bool
  returns : List Ty → Ty
  call : List Val → σ → Outcome × σ

/-- A parameter of a lambda: of a named type, taken by value or by reference to const
(`int i`, `const std::string& s`), or generic and taken by value (`auto x`).  For the
types of `Ty` a forwarding reference `auto&& x` accepts the same arguments as `auto x`, so
that where only acceptance matters (a handler on its own, the functors of a
`MultiDispatcher`) `generic` stands for it too; where candidates are ranked against each
other (`overloaded`) it does not, since a reference binding ranks differently.  Parameters
`T&` and `T&&` are not represented. -/
inductive Param
  | typed (t : Ty)
  | generic
  deriving DecidableEq

/-- A lambda expression: its parameter list, whether that list ends in a
generic pack (`auto...`), its return type as a function of the argument types (declared, or
deduced from the body for these argument types), and its body as a function of the bound
parameters. -/
structure Lambda (σ : Type) where
  params : List Param
  pack : Bool
  returns : List Ty → Ty
  body : List Val → σ → Outcome × σ

/-- Rank of the conversion of one argument type to one parameter; a generic parameter is
deduced to the argument type itself, an exact match. -/
def Param.rank : Param → Ty → Option Nat
  | .typed t, a => conversionRank a t
  | .generic, _ => some 0

/-- The value one parameter is bound to. -/
def Param.bind : Param → Val → Option Val
  | .typed t, v => convert t v
  | .generic, v => some v

/-- The conversion ranks of the argument types `tys` against the parameters `ps` (followed
by a generic pack when `pack` holds); `none` when the arity does not fit or some argument
does not convert implicitly to its parameter. -/
def rankAll : List Param → Bool → List Ty → Option (List Nat)
  | [], pack, tys => if pack || tys.isEmpty then some (tys.map (fun _ => 0)) else none
  | p :: ps, pack, a :: tys =>
    (p.rank a).bind (fun r => (rankAll ps pack tys).map (fun rs => r :: rs))
  | _ :: _, _, [] => none

/-- The parameter values of a call: each argument converted to its parameter, followed by
the arguments that go to the pack. -/
def bindParams : List Param → List Val → Option (List Val)
  | [], rest => some rest
  | p :: ps, a :: args =>
    (p.bind a).bind (fun v => (bindParams ps args).map (fun vs => v :: vs))
  | _ :: _, [] => none

/-- Whether `std::is_invocable_v` holds of a lambda at the argument types `tys`. -/
def Lambda.invocable {σ : Type} (l : Lambda σ) (tys : List Ty) : Bool :=
  (rankAll l.params l.pack tys).isSome

/-- The parameter values of a call of a lambda. -/
def Lambda.bindArgs {σ : Type} (l : Lambda σ) (args : List Val) : Option (List Val) :=
  bindParams l.params args

/-- A lambda as a handler. -/
def Lambda.toHandler {σ : Type} (l : Lambda σ) : Handler σ where
  invocable := l.invocable
  returns := l.returns
  call := fun args s =>
    if l.invocable (args.map Val.typeOf) then
      match l.bindArgs args with
      | some bound => l.body bound s
      | none => (Outcome.illFormed, s)
    else (Outcome.illFormed, s)

/-! ## `MultiDispatcher` (main.cpp:97-121) -/

/-- The class `MultiDispatcher<Functors...>`: its only member is the tuple of functors. -/
structure MultiDispatcher (σ : Type) where
  functors : List (Handler σ)

/-- The member `try_dispatch<I>(args...)` of main.cpp:101-112, with deduced return type
(`decltype(auto)`): the functor's own result, or `std::nullopt`. -/
def MultiDispatcher.try_dispatch {σ : Type} (d : MultiDispatcher σ) (I : Nat)
    (args : List Val) (s : σ) : Outcome × σ :=
  if h : I < d.functors.length then
    if (d.functors.get ⟨I, h⟩).invocable (args.map Val.typeOf) then
      (d.functors.get ⟨I, h⟩).call args s
    else
      d.try_dispatch (I + 1) args s
  else
    (Outcome.ret Val.nullopt, s)
termination_by d.functors.length - I

/-- The member `operator()(args...)` of main.cpp:117-120. -/
def MultiDispatcher.operator_call {σ : Type} (d : MultiDispatcher σ)
    (args : List Val) (s : σ) : Outcome × σ :=
  d.try_dispatch 0 args s

/-- The return type `decltype(auto)` deduces for `operator()` at the argument types `tys`:
that of the first functor invocable with them, `std::nullopt_t` when there is none. -/
def MultiDispatcher.returns {σ : Type} (d : MultiDispatcher σ) (tys : List Ty) : Ty :=
  match d.functors.find? (fun h => h.invocable tys) with
  | some h => h.returns tys
  | none => Ty.nullopt_t

/-! ## `MultiDispatcher` as copied into the test file (multi_dispatch_tests.cpp:102-126) -/

/-- Copy-initialisation of the declared return type `std::optional<int>` from the
operand of a `return` statement: an exception passes through, a value that does
not convert to `std::optional<int>` makes the function ill-formed. -/
def returnAsOptionalInt {σ : Type} : Outcome × σ → Outcome × σ
  | (Outcome.ret v, s) =>
    match convert Ty.optionalInt v with
    | some w => (Outcome.ret w, s)
    | none => (Outcome.illFormed, s)
  | r => r

/-- The member `try_dispatch<I>(args...)` of multi_dispatch_tests.cpp:106-117: the same body
as in main.cpp, with the declared return type `std::optional<int>`. -/
def Tests.MultiDispatcher.try_dispatch {σ : Type} (d : MultiDispatcher σ) (I : Nat)
    (args : List Val) (s : σ) : Outcome × σ :=
  if h : I < d.functors.length then
    if (d.functors.get ⟨I, h⟩).invocable (args.map Val.typeOf) then
      returnAsOptionalInt ((d.functors.get ⟨I, h⟩).call args s)
    else
      returnAsOptionalInt (Tests.MultiDispatcher.try_dispatch d (I + 1) args s)
  else
    returnAsOptionalInt (Outcome.ret Val.nullopt, s)
termination_by d.functors.length - I

/-- The member `operator()(args...)` of multi_dispatch_tests.cpp:122-125. -/
def Tests.MultiDispatcher.operator_call {σ : Type} (d : MultiDispatcher σ)
    (args : List Val) (s : σ) : Outcome × σ :=
  returnAsOptionalInt (Tests.MultiDispatcher.try_dispatch d 0 args s)

/-! ## The visitation engine (main.cpp:22-69) -/

/-- A `std::variant<alternatives...>` holding the alternative `active`.  (A variant that is
valueless by exception has no active alternative and is not represented.) -/
structure Variant where
  alternatives : List Ty
  active : Val

/-- The call `std::visit(f, v)` on one variant: `f` applied to the active alternative. -/
def std_visit {β : Type} (f : Val → β) (v : Variant) : β :=
  f v.active

/-- The function `VariantTupleVisitor<Visitor, Tuple, I>::visit(visitor, tuple, args...)` of
main.cpp:36-53.  `std::get<I>` beyond the end of the tuple does not compile. -/
def VariantTupleVisitor.visit {σ : Type} (visitor : Handler σ) (tuple : List Variant)
    (I : Nat) (args : List Val) (s : σ) : Outcome × σ :=
  if I = tuple.length then
    visitor.call args s
  else if h : I < tuple.length then
    std_visit
      (fun val => VariantTupleVisitor.visit visitor tuple (I + 1) (args ++ [val]) s)
      (tuple.get ⟨I, h⟩)
  else
    (Outcome.illFormed, s)
termination_by tuple.length - I

/-- The function `multi_visit(f, variants...)` of main.cpp:55-62.  The `static_assert` holds
by typing: every argument is a `Variant`. -/
def multi_visit {σ : Type} (f : Handler σ) (variants : List Variant) (s : σ) :
    Outcome × σ :=
  VariantTupleVisitor.visit f variants 0 [] s

/-- The function `apply_with_index_impl(f, t, std::index_sequence<Is...>)` of
main.cpp:22-25: `f(std::get<Is>(t)...)`. -/
def apply_with_index_impl {α β : Type} (f : List α → β) (t : List α)
    (Is : List (Fin t.length)) : β :=
  f (Is.map (fun i => t.get i))

/-- The function `apply_with_index(f, t)` of main.cpp:27-34;
`std::make_index_sequence<n>` is `0, 1, ..., n-1`. -/
def apply_with_index {α β : Type} (f : List α → β) (t : List α) : β :=
  apply_with_index_impl f t (List.finRange t.length)

/-- The function `multi_visit_tuple(f, tuple)` of main.cpp:64-69. -/
def multi_visit_tuple {σ : Type} (f : Handler σ) (tuple : List Variant) (s : σ) :
    Outcome × σ :=
  apply_with_index (fun variants => multi_visit f variants s) tuple

/-! ## Handlers and values of the tests -/

/-- The dispatcher of `TEST_F(MultiDispatchTest, MultiDispatcherBasic)`
(multi_dispatch_tests.cpp:236-240):
`[](int i, double d) { return i + static_cast<int>(d); }`,
`[](double d, int i) { return static_cast<int>(d) * i; }`,
`[](auto, auto) { return -1; }`. -/
def Tests.MultiDispatcherBasic.dispatcher (σ : Type) : MultiDispatcher σ where
  functors :=
    [ Lambda.toHandler
        { params := [Param.typed Ty.int, Param.typed Ty.double], pack := false,
          returns := fun _ => Ty.int,
          body := fun bound s =>
            match bound with
            | [Val.int i, Val.double d] => (Outcome.ret (Val.int (i + truncToInt d)), s)
            | _ => (Outcome.illFormed, s) },
      Lambda.toHandler
        { params := [Param.typed Ty.double, Param.typed Ty.int], pack := false,
          returns := fun _ => Ty.int,
          body := fun bound s =>
            match bound with
            | [Val.double d, Val.int i] => (Outcome.ret (Val.int (truncToInt d * i)), s)
            | _ => (Outcome.illFormed, s) },
      Lambda.toHandler
        { params := [Param.generic, Param.generic], pack := false,
          returns := fun _ => Ty.int,
          body := fun _ s => (Outcome.ret (Val.int (-1)), s) } ]

/-- The dispatcher of `TEST_F(MultiDispatchTest, MultiDispatcherNoMatch)`
(multi_dispatch_tests.cpp:290-293): `[](int, int) { return 1; }`,
`[](double, double) { return 2; }`. -/
def Tests.MultiDispatcherNoMatch.dispatcher (σ : Type) : MultiDispatcher σ where
  functors :=
    [ Lambda.toHandler
        { params := [Param.typed Ty.int, Param.typed Ty.int], pack := false,
          returns := fun _ => Ty.int,
          body := fun _ s => (Outcome.ret (Val.int 1), s) },
      Lambda.toHandler
        { params := [Param.typed Ty.double, Param.typed Ty.double], pack := false,
          returns := fun _ => Ty.int,
          body := fun _ s => (Outcome.ret (Val.int 2), s) } ]

/-! ## `overloaded` (main.cpp:7-11)

`struct overloaded : Ts... { using Ts::operator()...; }` has no code of its own: a call of an
`overloaded` object is resolved by the overload resolution of the C++ language among the
call operators of its bases ([over.match.best]). -/

/-- The struct `overloaded<Ts...>`: its bases, in declaration order. -/
structure overloaded (σ : Type) where
  Ts : List (Lambda σ)

/-- Whether the call operator of a lambda is a function template (a generic lambda). -/
def Lambda.isTemplate {σ : Type} (l : Lambda σ) : Bool :=
  l.pack || l.params.any (fun p => p == Param.generic)

/-- What a lambda declares at position `k` of its parameter list: a parameter, its trailing
pack `auto...`, or nothing. -/
inductive Slot
  | fixed (p : Param)
  | pack
  | none
  deriving DecidableEq

/-- The slot a lambda has at position `k`. -/
def Lambda.slotAt {σ : Type} (l : Lambda σ) (k : Nat) : Slot :=
  match l.params.get? k with
  | some p => Slot.fixed p
  | none => if l.pack && k == l.params.length then Slot.pack else Slot.none

/-- Deduction of the parameter `parm` of one template from the parameter `arg` of the other
([temp.deduct.partial]): a generic parameter is deduced from anything, a parameter of a named
type matches only the same named type. -/
def Param.unify (parm arg : Param) : Bool :=
  match parm with
  | Param.generic => true
  | Param.typed t => arg == Param.typed t

/-- One step of the partial ordering of two function templates ([temp.deduct.partial]), on
the slots the two have at one position: whether the first's parameter is deduced from the
second's, whether the second's is deduced from the first's, and whether the comparison ends
here.  A pack is deduced from a declared parameter, never the other way round, and a pack
ends the comparison. -/
def Slot.deduce : Slot → Slot → Bool × Bool × Bool
  | Slot.fixed p1, Slot.fixed p2 => (p1.unify p2, p2.unify p1, false)
  | Slot.fixed _, Slot.pack => (false, true, true)
  | Slot.pack, Slot.fixed _ => (true, false, true)
  | _, _ => (true, true, true)

/-- Partial ordering of two function templates over the parameters used by a call with `len`
arguments, from position `k` on, as the compiler carries it out: at each position a template
loses when the other's parameter cannot be deduced from its own, and the comparison stops
when both have lost or a pack has been met.  Returns the position reached and who has
lost. -/
def Lambda.orderLoop {σ : Type} (l1 l2 : Lambda σ) :
    Nat → Nat → Bool → Bool → Nat × Bool × Bool
  | 0, k, lose1, lose2 => (k, lose1, lose2)
  | len + 1, k, lose1, lose2 =>
    let d := Slot.deduce (l1.slotAt k) (l2.slotAt k)
    let lose1' := lose1 || !d.2.1
    let lose2' := lose2 || !d.1
    if lose1' && lose2' then (k, lose1', lose2')
    else if d.2.2 then (k + 1, lose1', lose2')
    else Lambda.orderLoop l1 l2 len (k + 1) lose1' lose2'

/-- Who has lost the partial ordering for a call with `n` arguments: when the comparison of
the parameters leaves the two templates level, the one whose next slot is a pack loses
to the one whose next slot is not. -/
def Lambda.orderLosers {σ : Type} (l1 l2 : Lambda σ) (n : Nat) : Bool × Bool :=
  let r := Lambda.orderLoop l1 l2 n 0 false false
  if r.2.1 == r.2.2 then
    (decide (l1.slotAt r.1 = Slot.pack), decide (l2.slotAt r.1 = Slot.pack))
  else (r.2.1, r.2.2)

/-- Whether `l1` is more specialized than `l2` for a call with `n` arguments. -/
def Lambda.moreSpecialized {σ : Type} (l1 l2 : Lambda σ) (n : Nat) : Bool :=
  !(l1.orderLosers l2 n).1 && (l1.orderLosers l2 n).2

/-- Whether `l1` is a better candidate than `l2` for the argument types `tys`
([over.match.best]): no argument converts worse, and either some argument converts
better, or `l1` is not a template and `l2` is, or both are templates and `l1` is the more
specialized. -/
def Lambda.better {σ : Type} (l1 l2 : Lambda σ) (tys : List Ty) : Bool :=
  match rankAll l1.params l1.pack tys, rankAll l2.params l2.pack tys with
  | some r1, some r2 =>
    (List.zipWith (fun a b => decide (a ≤ b)) r1 r2).all id &&
      ((List.zipWith (fun a b => decide (a < b)) r1 r2).any id
        || (!l1.isTemplate && l2.isTemplate)
        || (l1.isTemplate && l2.isTemplate && l1.moreSpecialized l2 tys.length))
  | _, _ => false

/-- Whether base `i` is the best viable candidate: it accepts the arguments and is
better than every other base that accepts them. -/
def overloaded.isBest {σ : Type} (o : overloaded σ) (tys : List Ty) (i : Nat) : Bool :=
  match o.Ts.get? i with
  | none => false
  | some l =>
    l.invocable tys &&
      (List.range o.Ts.length).all (fun j =>
        j == i ||
          match o.Ts.get? j with
          | none => true
          | some m => !m.invocable tys || l.better m tys)

/-- Overload resolution: the index of the best viable base, `none` when no base accepts
the arguments or the call is ambiguous. -/
def overloaded.resolve {σ : Type} (o : overloaded σ) (tys : List Ty) : Option Nat :=
  (List.range o.Ts.length).find? (fun i => o.isBest tys i)

/-- The inherited call operators `using Ts::operator()...` applied to `args`. -/
def overloaded.operator_call {σ : Type} (o : overloaded σ) (args : List Val) (s : σ) :
    Outcome × σ :=
  match o.resolve (args.map Val.typeOf) with
  | none => (Outcome.illFormed, s)
  | some i =>
    match o.Ts.get? i with
    | none => (Outcome.illFormed, s)
    | some l => l.toHandler.call args s

/-- An `overloaded` object as a handler. -/
def overloaded.toHandler {σ : Type} (o : overloaded σ) : Handler σ where
  invocable := fun tys => (o.resolve tys).isSome
  returns := fun tys =>
    match (o.resolve tys).bind (fun i => o.Ts.get? i) with
    | some l => l.returns tys
    | none => Ty.void
  call := o.operator_call

/-- A `MultiDispatcher` object as a handler: its call operator is an unconstrained
template, so it is invocable with every argument list. -/
def MultiDispatcher.toHandler {σ : Type} (d : MultiDispatcher σ) : Handler σ where
  invocable := fun _ => true
  returns := d.returns
  call := d.operator_call

/-- The visitor of `TEST_F(MultiDispatchTest, OverloadedPattern)`
(multi_dispatch_tests.cpp:408-412): `[](int i) { return i * 2; }`,
`[](double d) { return static_cast<int>(d * 3); }`,
`[](const std::string& s) { return static_cast<int>(s.length()); }`. -/
def Tests.OverloadedPattern.visitor (σ : Type) : overloaded σ where
  Ts :=
    [ { params := [Param.typed Ty.int], pack := false,
        returns := fun _ => Ty.int,
        body := fun bound s =>
          match bound with
          | [Val.int i] => (Outcome.ret (Val.int (i * 2)), s)
          | _ => (Outcome.illFormed, s) },
      { params := [Param.typed Ty.double], pack := false,
        returns := fun _ => Ty.int,
        body := fun bound s =>
          match bound with
          | [Val.double d] => (Outcome.ret (Val.int (truncToInt (d * 3))), s)
          | _ => (Outcome.illFormed, s) },
      { params := [Param.typed Ty.string], pack := false,
        returns := fun _ => Ty.int,
        body := fun bound s =>
          match bound with
          | [Val.string str] => (Outcome.ret (Val.int str.length), s)
          | _ => (Outcome.illFormed, s) } ]

/-- The variant `V v = std::string("hello")` of that test, with
`V = std::variant<int, double, std::string>`. -/
def Tests.OverloadedPattern.v : Variant where
  alternatives := [Ty.int, Ty.double, Ty.string]
  active := Val.string "hello"

/-! ## Further handlers a caller can write -/

/-- The handler `[](int) -> std::optional<int> { return std::nullopt; }`. -/
def Examples.absentOnInt (σ : Type) : Handler σ :=
  Lambda.toHandler
    { params := [Param.typed Ty.int], pack := false,
      returns := fun _ => Ty.optionalInt,
      body := fun _ s => (Outcome.ret (Val.optionalInt none), s) }

/-- The dispatcher `MultiDispatcher{ [](int) -> std::optional<int> { return std::nullopt; } }`. -/
def Examples.absentDispatcher (σ : Type) : MultiDispatcher σ where
  functors := [Examples.absentOnInt σ]

/-- The dispatcher `MultiDispatcher{ [&](int) -> int { ++calls; throw std::runtime_error("boom"); },
[&](auto) { ++calls; return 0; } }`, the state being the counter `calls`. -/
def Examples.throwingDispatcher : MultiDispatcher Nat where
  functors :=
    [ Lambda.toHandler
        { params := [Param.typed Ty.int], pack := false,
          returns := fun _ => Ty.int,
          body := fun _ calls => (Outcome.raise "boom", calls + 1) },
      Lambda.toHandler
        { params := [Param.generic], pack := false,
          returns := fun _ => Ty.int,
          body := fun _ calls => (Outcome.ret (Val.int 0), calls + 1) } ]

/-- A handler that accepts every argument list and appends the argument list it is called
with to a log, `[&log](auto&&... xs) { log.push_back({xs...}); }`: the log shows how often
and with which arguments the handler was invoked. -/
def Examples.recorder : Handler (List (List Val)) where
  invocable := fun _ => true
  returns := fun _ => Ty.void
  call := fun args log => (Outcome.ret Val.void, log ++ [args])

/-- The handler of `TEST_F(MultiDispatchTest, EmptyTuple)`
(multi_dispatch_tests.cpp:339-341), `[&counter]() { counter++; }`, the state being
`counter`. -/
def Tests.EmptyTuple.handler : Handler Nat :=
  Lambda.toHandler
    { params := [], pack := false,
      returns := fun _ => Ty.void,
      body := fun _ counter => (Outcome.ret Val.void, counter + 1) }

/-- The handler of `TEST_F(MultiDispatchTest, TwoVariantsDispatch)`
(multi_dispatch_tests.cpp:200-211): a generic lambda of two parameters that formats
`"A=" << x.value << ",C=" << y.value` when its arguments are an `A` and a `C`, and returns
`"Other"` for every other combination. -/
def Tests.TwoVariantsDispatch.lambda (σ : Type) : Lambda σ where
  params := [Param.generic, Param.generic]
  pack := false
  returns := fun _ => Ty.string
  body := fun bound s =>
    match bound with
    | [Val.A x, Val.C y] =>
      (Outcome.ret (Val.string ("A=" ++ toString x ++ ",C=" ++ String.singleton y)), s)
    | _ => (Outcome.ret (Val.string "Other"), s)

/-- That lambda as a handler. -/
def Tests.TwoVariantsDispatch.handler (σ : Type) : Handler σ :=
  (Tests.TwoVariantsDispatch.lambda σ).toHandler

/-- The variant `V1 v1 = A{10}` of that test, `V1 = std::variant<A, B>`. -/
def Tests.TwoVariantsDispatch.v1 : Variant where
  alternatives := [Ty.A, Ty.B]
  active := Val.A 10

/-- The variant `V2 v2 = C{'X'}` of that test, `V2 = std::variant<B, C>`. -/
def Tests.TwoVariantsDispatch.v2 : Variant where
  alternatives := [Ty.B, Ty.C]
  active := Val.C 'X'

/-- The object `overloaded{ [](int, double) { return 1; }, [](double, int) { return 2; } }`. -/
def Examples.crossed (σ : Type) : overloaded σ where
  Ts :=
    [ { params := [Param.typed Ty.int, Param.typed Ty.double], pack := false,
        returns := fun _ => Ty.int,
        body := fun _ s => (Outcome.ret (Val.int 1), s) },
      { params := [Param.typed Ty.double, Param.typed Ty.int], pack := false,
        returns := fun _ => Ty.int,
        body := fun _ s => (Outcome.ret (Val.int 2), s) } ]

/-! ## Handlers and values of further tests -/

/-- The visitor of `TEST_F(MultiDispatchTest, RecursiveVariants)`
(multi_dispatch_tests.cpp:431-434): `[](int val, int val2) { return val + val2; }`,
`[](auto, auto) { return -1; }`. -/
def Tests.RecursiveVariants.sum_visitor (σ : Type) : overloaded σ where
  Ts :=
    [ { params := [Param.typed Ty.int, Param.typed Ty.int], pack := false,
        returns := fun _ => Ty.int,
        body := fun bound s =>
          match bound with
          | [Val.int val, Val.int val2] => (Outcome.ret (Val.int (val + val2)), s)
          | _ => (Outcome.illFormed, s) },
      { params := [Param.generic, Param.generic], pack := false,
        returns := fun _ => Ty.int,
        body := fun _ s => (Outcome.ret (Val.int (-1)), s) } ]

/-- The same two constituents declared in the other order:
`overloaded{ [](auto, auto) { return -1; }, [](int val, int val2) { return val + val2; } }`. -/
def Examples.catchAllFirst (σ : Type) : overloaded σ where
  Ts := (Tests.RecursiveVariants.sum_visitor σ).Ts.reverse

/-- The handler of `TEST_F(MultiDispatchTest, ApplyWithIndexBasic)`
(multi_dispatch_tests.cpp:460-462):
`[](int i, double d, char c) { return i + static_cast<int>(d) + static_cast<int>(c); }`. -/
def Tests.ApplyWithIndexBasic.handler (σ : Type) : Handler σ :=
  Lambda.toHandler
    { params := [Param.typed Ty.int, Param.typed Ty.double, Param.typed Ty.char],
      pack := false,
      returns := fun _ => Ty.int,
      body := fun bound s =>
        match bound with
        | [Val.int i, Val.double d, Val.char c] =>
          (Outcome.ret (Val.int (i + truncToInt d + (c.toNat : Int))), s)
        | _ => (Outcome.illFormed, s) }

/-- The tuple `std::make_tuple(1, 2.5, 'c')` of that test. -/
def Tests.ApplyWithIndexBasic.tuple : List Val :=
  [Val.int 1, Val.double 2.5, Val.char 'c']

/-- The dispatcher of `TEST_F(MultiDispatchTest, MultiDispatcherWithVariants)`
(multi_dispatch_tests.cpp:261-277).  Its handlers capture the fixture's `call_count` and
`last_result` by reference; the state is the pair of the two:
`[&](A a, C c) { call_count++; last_result = "A-C"; return 1; }`,
`[&](B b, B b2) { call_count++; last_result = "B-B"; return 2; }`,
`[&](auto, auto) { call_count++; last_result = "default"; return 0; }`. -/
def Tests.MultiDispatcherWithVariants.dispatcher : MultiDispatcher (Nat × String) where
  functors :=
    [ Lambda.toHandler
        { params := [Param.typed Ty.A, Param.typed Ty.C], pack := false,
          returns := fun _ => Ty.int,
          body := fun _ st => (Outcome.ret (Val.int 1), (st.1 + 1, "A-C")) },
      Lambda.toHandler
        { params := [Param.typed Ty.B, Param.typed Ty.B], pack := false,
          returns := fun _ => Ty.int,
          body := fun _ st => (Outcome.ret (Val.int 2), (st.1 + 1, "B-B")) },
      Lambda.toHandler
        { params := [Param.generic, Param.generic], pack := false,
          returns := fun _ => Ty.int,
          body := fun _ st => (Outcome.ret (Val.int 0), (st.1 + 1, "default")) } ]

/-- The variant `V1 v1 = A{42}` of that test, `V1 = std::variant<A, B>`. -/
def Tests.MultiDispatcherWithVariants.v1 : Variant where
  alternatives := [Ty.A, Ty.B]
  active := Val.A 42

/-- The variant `V2 v2 = C{'Y'}` of that test, `V2 = std::variant<B, C>`. -/
def Tests.MultiDispatcherWithVariants.v2 : Variant where
  alternatives := [Ty.B, Ty.C]
  active := Val.C 'Y'

/-- The visitor of that test (multi_dispatch_tests.cpp:279-281),
`[&dispatcher](auto&& a, auto&& b) -> std::optional<int> { return dispatcher(a, b); }`, the
dispatcher being the copy of the test file. -/
def Tests.MultiDispatcherWithVariants.visitor : Handler (Nat × String) :=
  Lambda.toHandler
    { params := [Param.generic, Param.generic], pack := false,
      returns := fun _ => Ty.optionalInt,
      body := fun bound st =>
        returnAsOptionalInt
          (Tests.MultiDispatcher.operator_call
            Tests.MultiDispatcherWithVariants.dispatcher bound st) }

/-- A handler that forwards every argument list to a dispatcher of main.cpp,
`[&d](auto&&... xs) -> decltype(auto) { return d(xs...); }`. -/
def Examples.forwarder {σ : Type} (d : MultiDispatcher σ) : Handler σ :=
  Lambda.toHandler
    { params := [], pack := true,
      returns := fun tys => d.returns tys,
      body := fun bound s => d.operator_call bound s }

/-- The combinations of alternatives of a list of alternative lists, one alternative from
each. -/
def combinations : List (List Ty) → List (List Ty)
  | [] => [[]]
  | alts :: rest => alts.flatMap (fun t => (combinations rest).map (fun c => t :: c))

/-- The return type of `std::visit` given, for each alternative of the variant, the type of
the call of the callable on it (`none` when that call does not compile): the calls must all
compile and have the same type.  (A variant has at least one alternative.) -/
def sameType : List (Option Ty) → Option Ty
  | [] => none
  | r :: rs => if rs.all (fun x => decide (x = r)) then r else none

/-- The return type of the instantiation of
`VariantTupleVisitor<Visitor, Tuple, I>::visit` for bound arguments of the types `argTys`,
the tuple elements having the alternative lists `tuple`, or `none` when the instantiation
does not compile: the type-level reading of main.cpp:39-52. -/
def VariantTupleVisitor.visit_type {σ : Type} (visitor : Handler σ)
    (tuple : List (List Ty)) (I : Nat) (argTys : List Ty) : Option Ty :=
  if I = tuple.length then
    if visitor.invocable argTys then some (visitor.returns argTys) else none
  else if h : I < tuple.length then
    sameType ((tuple.get ⟨I, h⟩).map
      (fun t => VariantTupleVisitor.visit_type visitor tuple (I + 1) (argTys ++ [t])))
  else
    none
termination_by tuple.length - I

/-- The return type of the call `multi_visit(f, variants...)`, or `none` when the call does
not compile. -/
def multi_visit_type {σ : Type} (f : Handler σ) (variants : List Variant) : Option Ty :=
  VariantTupleVisitor.visit_type f (variants.map Variant.alternatives) 0 []

/-- Whether the call `multi_visit(f, variants...)` compiles. -/
def multi_visit_compiles {σ : Type} (f : Handler σ) (variants : List Variant) : Bool :=
  (multi_visit_type f variants).isSome

/-- The call `multi_visit(f, variants...)` as a whole: rejected at build time when it does
not compile, run otherwise. -/
def multi_visit_checked {σ : Type} (f : Handler σ) (variants : List Variant) (s : σ) :
    Outcome × σ :=
  if multi_visit_compiles f variants then multi_visit f variants s
  else (Outcome.illFormed, s)

/-- The dispatcher of the test `MultiDispatcherWithVariants` without its catch-all handler:
`MultiDispatcher{ [&](A a, C c) { ... return 1; }, [&](B b, B b2) { ... return 2; } }`. -/
def Examples.withoutCatchAll : MultiDispatcher (Nat × String) where
  functors := Tests.MultiDispatcherWithVariants.dispatcher.functors.take 2

/-- The variant `V1 v1 = B{2.5}`, `V1 = std::variant<A, B>`. -/
def Examples.holdingB : Variant where
  alternatives := [Ty.A, Ty.B]
  active := Val.B 2.5

/-! ## `tuple_transform` (main.cpp:83-95) -/

/-- The function `tuple_transform_impl(t, f, std::index_sequence<Is...>)` of main.cpp:83-86:
`std::make_tuple(f(std::get<Is>(t))...)`.  The function `f` is a pure function: the order in
which C++ evaluates the calls is unspecified and cannot be observed. -/
def tuple_transform_impl {α β : Type} (t : List α) (f : α → β)
    (Is : List (Fin t.length)) : List β :=
  Is.map (fun i => f (t.get i))

/-- The function `tuple_transform(t, f)` of main.cpp:88-95. -/
def tuple_transform {α β : Type} (t : List α) (f : α → β) : List β :=
  tuple_transform_impl t f (List.finRange t.length)

/-! ## The recursion of `visit`, instrumented -/

/-- The function `VariantTupleVisitor::visit` of main.cpp:36-53 with a counter of its levels:
next to the result it returns the indices at which `std::visit` was entered, outermost
first. -/
def VariantTupleVisitor.visit_traced {σ : Type} (visitor : Handler σ) (tuple : List Variant)
    (I : Nat) (args : List Val) (s : σ) : (Outcome × σ) × List Nat :=
  if I = tuple.length then
    (visitor.call args s, [])
  else if h : I < tuple.length then
    let r := std_visit
      (fun val => VariantTupleVisitor.visit_traced visitor tuple (I + 1) (args ++ [val]) s)
      (tuple.get ⟨I, h⟩)
    (r.1, I :: r.2)
  else
    ((Outcome.illFormed, s), [])
termination_by tuple.length - I

/-- The lambda `[](ps...) { return n; }` with the parameter list `ps`, followed by `auto...`
when `pack` holds. -/
def Examples.candidate (ps : List Param) (pack : Bool) (n : Int) : Lambda Unit where
  params := ps
  pack := pack
  returns := fun _ => Ty.int
  body := fun _ s => (Outcome.ret (Val.int n), s)

/-! ## Auxiliary facts -/

theorem truncToInt_intCast (i : Int) : truncToInt (i : ℚ) = i := by
  simp [truncToInt]

theorem truncToInt_ofNat (n : ℕ) [n.AtLeastTwo] :
    truncToInt (no_index (OfNat.ofNat n)) = OfNat.ofNat n := by
  have h := truncToInt_intCast (OfNat.ofNat n)
  simpa using h

theorem truncToInt_one : truncToInt 1 = 1 := by
  have h := truncToInt_intCast 1
  simpa using h

theorem truncToInt_two_and_a_half : truncToInt 2.5 = 2 := by
  simp [truncToInt]; norm_num; rfl

theorem truncToInt_three_point_seven : truncToInt 3.7 = 3 := by
  simp [truncToInt]; norm_num; rfl

/-- A converted value has the type of the parameter. -/
theorem convert_typeOf (p : Ty) (v w : Val) (h : convert p v = some w) : w.typeOf = p := by
  cases v <;> cases p <;>
    simp [convert, Val.typeOf, Val.toNum, fromNum] at h <;>
    subst h <;> rfl

/-- Having reached index `I` with no functor in `I .. i-1` invocable, `try_dispatch` runs
functor `i`. -/
theorem MultiDispatcher.try_dispatch_first {σ : Type} (d : MultiDispatcher σ)
    (args : List Val) (s : σ) (i : Nat) (hi : i < d.functors.length)
    (hacc : (d.functors.get ⟨i, hi⟩).invocable (args.map Val.typeOf) = true) :
    ∀ (k I : Nat), I + k = i →
      (∀ (j : Nat) (hj : j < d.functors.length), I ≤ j → j < i →
        (d.functors.get ⟨j, hj⟩).invocable (args.map Val.typeOf) = false) →
      d.try_dispatch I args s = (d.functors.get ⟨i, hi⟩).call args s := by
  intro k
  induction k with
  | zero =>
    intro I hI _
    have hIi : I = i := by omega
    subst hIi
    rw [MultiDispatcher.try_dispatch, dif_pos hi, if_pos hacc]
  | succ k ih =>
    intro I hI hbefore
    have hIlt : I < d.functors.length := by omega
    have hrej := hbefore I hIlt (Nat.le_refl I) (by omega)
    rw [MultiDispatcher.try_dispatch, dif_pos hIlt, if_neg (by rw [hrej]; exact Bool.false_ne_true)]
    exact ih (I + 1) (by omega) (fun j hj hle hlt => hbefore j hj (by omega) hlt)

/-- With no invocable functor from index `I` on, `try_dispatch` returns `std::nullopt`
and leaves the state alone. -/
theorem MultiDispatcher.try_dispatch_none {σ : Type} (d : MultiDispatcher σ)
    (args : List Val) (s : σ) :
    ∀ (k I : Nat), I + k = d.functors.length →
      (∀ (j : Nat) (hj : j < d.functors.length), I ≤ j →
        (d.functors.get ⟨j, hj⟩).invocable (args.map Val.typeOf) = false) →
      d.try_dispatch I args s = (Outcome.ret Val.nullopt, s) := by
  intro k
  induction k with
  | zero =>
    intro I hI _
    rw [MultiDispatcher.try_dispatch, dif_neg (by omega)]
  | succ k ih =>
    intro I hI hrej
    have hIlt : I < d.functors.length := by omega
    have hr := hrej I hIlt (Nat.le_refl I)
    rw [MultiDispatcher.try_dispatch, dif_pos hIlt, if_neg (by rw [hr]; exact Bool.false_ne_true)]
    exact ih (I + 1) (by omega) (fun j hj hle => hrej j hj (by omega))

theorem returnAsOptionalInt_idem {σ : Type} (r : Outcome × σ) :
    returnAsOptionalInt (returnAsOptionalInt r) = returnAsOptionalInt r := by
  rcases r with ⟨o, s⟩
  cases o with
  | ret v =>
    cases v <;> simp [returnAsOptionalInt, convert, Val.typeOf, Val.toNum]
  | raise e => simp [returnAsOptionalInt]
  | illFormed => simp [returnAsOptionalInt]

/-- The test copy of `try_dispatch` runs the same functor and converts its result to the
declared return type. -/
theorem Tests.MultiDispatcher.try_dispatch_copy_first {σ : Type} (d : MultiDispatcher σ)
    (args : List Val) (s : σ) (i : Nat) (hi : i < d.functors.length)
    (hacc : (d.functors.get ⟨i, hi⟩).invocable (args.map Val.typeOf) = true) :
    ∀ (k I : Nat), I + k = i →
      (∀ (j : Nat) (hj : j < d.functors.length), I ≤ j → j < i →
        (d.functors.get ⟨j, hj⟩).invocable (args.map Val.typeOf) = false) →
      Tests.MultiDispatcher.try_dispatch d I args s
        = returnAsOptionalInt ((d.functors.get ⟨i, hi⟩).call args s) := by
  intro k
  induction k with
  | zero =>
    intro I hI _
    have hIi : I = i := by omega
    subst hIi
    rw [Tests.MultiDispatcher.try_dispatch, dif_pos hi, if_pos hacc]
  | succ k ih =>
    intro I hI hbefore
    have hIlt : I < d.functors.length := by omega
    have hrej := hbefore I hIlt (Nat.le_refl I) (by omega)
    rw [Tests.MultiDispatcher.try_dispatch, dif_pos hIlt,
      if_neg (by rw [hrej]; exact Bool.false_ne_true),
      ih (I + 1) (by omega) (fun j hj hle hlt => hbefore j hj (by omega) hlt),
      returnAsOptionalInt_idem]

/-- With no invocable functor from index `I` on, the test copy of `try_dispatch` returns an
empty `std::optional<int>` and leaves the state alone. -/
theorem Tests.MultiDispatcher.try_dispatch_copy_none {σ : Type} (d : MultiDispatcher σ)
    (args : List Val) (s : σ) :
    ∀ (k I : Nat), I + k = d.functors.length →
      (∀ (j : Nat) (hj : j < d.functors.length), I ≤ j →
        (d.functors.get ⟨j, hj⟩).invocable (args.map Val.typeOf) = false) →
      Tests.MultiDispatcher.try_dispatch d I args s
        = (Outcome.ret (Val.optionalInt none), s) := by
  intro k
  induction k with
  | zero =>
    intro I hI _
    rw [Tests.MultiDispatcher.try_dispatch, dif_neg (by omega)]
    rfl
  | succ k ih =>
    intro I hI hrej
    have hIlt : I < d.functors.length := by omega
    have hr := hrej I hIlt (Nat.le_refl I)
    rw [Tests.MultiDispatcher.try_dispatch, dif_pos hIlt,
      if_neg (by rw [hr]; exact Bool.false_ne_true),
      ih (I + 1) (by omega) (fun j hj hle => hrej j hj (by omega))]
    rfl

/-! ## The ordered fallback dispatcher -/

/-- C2: for every functor list, argument list and state, when functor `i` accepts the
arguments (`std::is_invocable_v`) and no functor before it does, `operator()` is exactly the
call of functor `i` on those arguments: it returns that functor's result and ends in the
state that single call leaves.  Nothing is assumed about the functors after `i`, which may
accept the arguments as well.  The copy in the test file does the same and converts the
result to its declared return type `std::optional<int>`. -/
theorem MultiDispatcher.first_accepting_functor_wins {σ : Type} (d : MultiDispatcher σ)
    (args : List Val) (s : σ) (i : Nat) (hi : i < d.functors.length)
    (hacc : (d.functors.get ⟨i, hi⟩).invocable (args.map Val.typeOf) = true)
    (hfirst : ∀ (j : Nat) (hj : j < d.functors.length), j < i →
      (d.functors.get ⟨j, hj⟩).invocable (args.map Val.typeOf) = false) :
    d.operator_call args s = (d.functors.get ⟨i, hi⟩).call args s
    ∧ Tests.MultiDispatcher.operator_call d args s
        = returnAsOptionalInt ((d.functors.get ⟨i, hi⟩).call args s) := by
  constructor
  · exact MultiDispatcher.try_dispatch_first d args s i hi hacc i 0 (by omega)
      (fun j hj _ hlt => hfirst j hj hlt)
  · unfold Tests.MultiDispatcher.operator_call
    rw [Tests.MultiDispatcher.try_dispatch_copy_first d args s i hi hacc i 0 (by omega)
      (fun j hj _ hlt => hfirst j hj hlt), returnAsOptionalInt_idem]

/-- C2, at the dispatcher of the test `MultiDispatcherBasic` called with `(5, 3.7)`: the
first functor `(int, double)` accepts, so does the third `(auto, auto)`, and the call is the
call of the first, which returns `8`. -/
theorem MultiDispatcher.first_accepting_functor_wins_witness :
    ((Tests.MultiDispatcherBasic.dispatcher Unit).functors.get ⟨2, by decide⟩).invocable
        ([Val.int 5, Val.double 3.7].map Val.typeOf) = true
    ∧ (Tests.MultiDispatcherBasic.dispatcher Unit).operator_call
        [Val.int 5, Val.double 3.7] () = (Outcome.ret (Val.int 8), ())
    ∧ Tests.MultiDispatcher.operator_call (Tests.MultiDispatcherBasic.dispatcher Unit)
        [Val.int 5, Val.double 3.7] () = (Outcome.ret (Val.optionalInt (some 8)), ()) := by
  have h := MultiDispatcher.first_accepting_functor_wins
    (Tests.MultiDispatcherBasic.dispatcher Unit) [Val.int 5, Val.double 3.7] () 0
    (by decide) (by decide) (by intro j hj hlt; omega)
  refine ⟨by decide, ?_, ?_⟩
  · rw [h.1]
    simp [Tests.MultiDispatcherBasic.dispatcher, Lambda.toHandler, Lambda.invocable,
      Lambda.bindArgs, rankAll, bindParams, Param.rank, Param.bind, conversionRank, convert,
      Val.typeOf, truncToInt_three_point_seven]
  · rw [h.2]
    simp [Tests.MultiDispatcherBasic.dispatcher, Lambda.toHandler, Lambda.invocable,
      Lambda.bindArgs, rankAll, bindParams, Param.rank, Param.bind, conversionRank, convert,
      Val.typeOf, truncToInt_three_point_seven, returnAsOptionalInt, Val.toNum,
      truncToInt_ofNat]

/-- C3: for every functor list, argument list and state, when no functor accepts the
arguments, `operator()` returns the absent value `std::nullopt` (the copy in the test file:
an empty `std::optional<int>`) and the state is the one before the call, whatever the
functors would do when called: no functor is invoked. -/
theorem MultiDispatcher.no_accepting_functor_absent {σ : Type} (d : MultiDispatcher σ)
    (args : List Val) (s : σ)
    (hnone : ∀ (j : Nat) (hj : j < d.functors.length),
      (d.functors.get ⟨j, hj⟩).invocable (args.map Val.typeOf) = false) :
    d.operator_call args s = (Outcome.ret Val.nullopt, s)
    ∧ Tests.MultiDispatcher.operator_call d args s
        = (Outcome.ret (Val.optionalInt none), s) := by
  constructor
  · exact MultiDispatcher.try_dispatch_none d args s d.functors.length 0 (by omega)
      (fun j hj _ => hnone j hj)
  · unfold Tests.MultiDispatcher.operator_call
    rw [Tests.MultiDispatcher.try_dispatch_copy_none d args s d.functors.length 0 (by omega)
      (fun j hj _ => hnone j hj)]
    rfl

/-- C3, at the dispatcher of the test `MultiDispatcherNoMatch`, handlers
`(int, int) -> 1` and `(double, double) -> 2`, called with `("string", 'c')`: a string
literal converts neither to `int` nor to `double`, and the result is absent. -/
theorem MultiDispatcher.no_accepting_functor_absent_witness :
    (Tests.MultiDispatcherNoMatch.dispatcher Unit).operator_call
        [Val.cstr "string", Val.char 'c'] () = (Outcome.ret Val.nullopt, ())
    ∧ Tests.MultiDispatcher.operator_call (Tests.MultiDispatcherNoMatch.dispatcher Unit)
        [Val.cstr "string", Val.char 'c'] () = (Outcome.ret (Val.optionalInt none), ()) :=
  MultiDispatcher.no_accepting_functor_absent (Tests.MultiDispatcherNoMatch.dispatcher Unit)
    [Val.cstr "string", Val.char 'c'] ()
    (by
      intro j hj
      have hj2 : j < 2 := hj
      interval_cases j <;> rfl)

/-- C4, as stated, fails: the dispatcher whose only handler is
`[](int) -> std::optional<int> { return std::nullopt; }`, called with `(1)`, has a handler that
accepts the argument, and yet its result is an empty optional, in main.cpp and in the copy
of the test file alike: the handler's absent return value is not wrapped in a present
optional.  In main.cpp the result of a call that returns `8` is the `int` itself, not an
optional. -/
theorem MultiDispatcher.absent_result_with_accepting_functor :
    ((Examples.absentDispatcher Unit).functors.get ⟨0, by decide⟩).invocable
        ([Val.int 1].map Val.typeOf) = true
    ∧ (Examples.absentDispatcher Unit).operator_call [Val.int 1] ()
        = (Outcome.ret (Val.optionalInt none), ())
    ∧ Tests.MultiDispatcher.operator_call (Examples.absentDispatcher Unit) [Val.int 1] ()
        = (Outcome.ret (Val.optionalInt none), ())
    ∧ (Val.optionalInt none).isAbsent = true
    ∧ (Val.optionalInt none).isPresentOptional = false
    ∧ (Tests.MultiDispatcherBasic.dispatcher Unit).operator_call
        [Val.int 5, Val.double 3.7] () = (Outcome.ret (Val.int 8), ())
    ∧ (Val.int 8).isPresentOptional = false := by
  refine ⟨by decide, ?_, ?_, rfl, rfl, ?_, rfl⟩
  · simp [MultiDispatcher.operator_call, MultiDispatcher.try_dispatch,
      Examples.absentDispatcher, Examples.absentOnInt, Lambda.toHandler, Lambda.invocable,
      Lambda.bindArgs, rankAll, bindParams, Param.rank, Param.bind, conversionRank, convert,
      Val.typeOf]
  · simp [Tests.MultiDispatcher.operator_call, Tests.MultiDispatcher.try_dispatch,
      Examples.absentDispatcher, Examples.absentOnInt, Lambda.toHandler, Lambda.invocable,
      Lambda.bindArgs, rankAll, bindParams, Param.rank, Param.bind, conversionRank, convert,
      Val.typeOf, returnAsOptionalInt]
  · simp [MultiDispatcher.operator_call, MultiDispatcher.try_dispatch,
      Tests.MultiDispatcherBasic.dispatcher, Lambda.toHandler, Lambda.invocable,
      Lambda.bindArgs, rankAll, bindParams, Param.rank, Param.bind, conversionRank, convert,
      Val.typeOf, truncToInt_three_point_seven]

/-- C4, amended: when functor `i` is the first that accepts the arguments, the result of
`operator()` is the return value of that functor itself, not wrapped: in main.cpp it is
passed on unchanged, in the copy of the test file it is converted to `std::optional<int>`.
There a returned `int n` becomes the present optional holding `n`, any returned number the
present optional holding its conversion to `int`, a returned optional stays as it is, a
returned `std::nullopt` becomes the empty optional, and a value of any other type does not
convert (the call is rejected).  In both versions the result is absent only if the functor
itself returned an absent value. -/
theorem MultiDispatcher.result_is_accepting_functor_result {σ : Type}
    (d : MultiDispatcher σ) (args : List Val) (s : σ) (i : Nat)
    (hi : i < d.functors.length)
    (hacc : (d.functors.get ⟨i, hi⟩).invocable (args.map Val.typeOf) = true)
    (hfirst : ∀ (j : Nat) (hj : j < d.functors.length), j < i →
      (d.functors.get ⟨j, hj⟩).invocable (args.map Val.typeOf) = false) :
    d.operator_call args s = (d.functors.get ⟨i, hi⟩).call args s
    ∧ (∀ (n : Int) (t : σ), (d.functors.get ⟨i, hi⟩).call args s = (Outcome.ret (Val.int n), t) →
        Tests.MultiDispatcher.operator_call d args s
          = (Outcome.ret (Val.optionalInt (some n)), t))
    ∧ (∀ (v : Val) (t : σ), (d.functors.get ⟨i, hi⟩).call args s = (Outcome.ret v, t) →
        v.isAbsent = true →
        Tests.MultiDispatcher.operator_call d args s = (Outcome.ret (Val.optionalInt none), t))
    ∧ (∀ (v : Val) (t : σ), d.operator_call args s = (Outcome.ret v, t) →
        v.isAbsent = true →
        (d.functors.get ⟨i, hi⟩).call args s = (Outcome.ret v, t))
    ∧ (∀ (v : Val) (t : σ) (q : ℚ),
        (d.functors.get ⟨i, hi⟩).call args s = (Outcome.ret v, t) → v.toNum = some q →
        Tests.MultiDispatcher.operator_call d args s
          = (Outcome.ret (Val.optionalInt (some (truncToInt q))), t))
    ∧ (∀ (o : Option Int) (t : σ),
        (d.functors.get ⟨i, hi⟩).call args s = (Outcome.ret (Val.optionalInt o), t) →
        Tests.MultiDispatcher.operator_call d args s = (Outcome.ret (Val.optionalInt o), t))
    ∧ (∀ (v : Val) (t : σ),
        (d.functors.get ⟨i, hi⟩).call args s = (Outcome.ret v, t) → v.toNum = none →
        v ≠ Val.nullopt → (∀ (o : Option Int), v ≠ Val.optionalInt o) →
        Tests.MultiDispatcher.operator_call d args s = (Outcome.illFormed, t))
    ∧ (∀ (v : Val) (t u : σ),
        (d.functors.get ⟨i, hi⟩).call args s = (Outcome.ret v, t) →
        Tests.MultiDispatcher.operator_call d args s
          = (Outcome.ret (Val.optionalInt none), u) →
        v.isAbsent = true) := by
  have hmain : d.operator_call args s = (d.functors.get ⟨i, hi⟩).call args s :=
    MultiDispatcher.try_dispatch_first d args s i hi hacc i 0 (by omega)
      (fun j hj _ hlt => hfirst j hj hlt)
  have hcopy : Tests.MultiDispatcher.operator_call d args s
      = returnAsOptionalInt ((d.functors.get ⟨i, hi⟩).call args s) := by
    unfold Tests.MultiDispatcher.operator_call
    rw [Tests.MultiDispatcher.try_dispatch_copy_first d args s i hi hacc i 0 (by omega)
      (fun j hj _ hlt => hfirst j hj hlt), returnAsOptionalInt_idem]
  refine ⟨hmain, ?_, ?_, ?_, ?_, ?_, ?_, ?_⟩
  · intro n t hcall
    rw [hcopy, hcall]
    simp [returnAsOptionalInt, convert, Val.typeOf, Val.toNum, truncToInt_intCast]
  · intro v t hcall habs
    rw [hcopy, hcall]
    cases v with
    | nullopt => simp [returnAsOptionalInt, convert, Val.typeOf]
    | optionalInt o =>
      cases o with
      | none => simp [returnAsOptionalInt, convert, Val.typeOf]
      | some n => simp [Val.isAbsent] at habs
    | _ => simp [Val.isAbsent] at habs
  · intro v t hres _
    rw [← hmain]
    exact hres
  · intro v t q hcall hq
    rw [hcopy, hcall]
    cases v <;> simp [Val.toNum] at hq <;> subst hq <;>
      simp [returnAsOptionalInt, convert, Val.typeOf, Val.toNum]
  · intro o t hcall
    rw [hcopy, hcall]
    simp [returnAsOptionalInt, convert, Val.typeOf]
  · intro v t hcall hq hn ho
    rw [hcopy, hcall]
    cases v <;> simp [Val.toNum] at hq <;>
      first
        | exact absurd rfl hn
        | exact absurd rfl (ho _)
        | simp [returnAsOptionalInt, convert, Val.typeOf, Val.toNum]
  · intro v t u hcall hres
    rw [hcopy, hcall] at hres
    cases v <;>
      simp [returnAsOptionalInt, convert, Val.typeOf, Val.toNum, Val.isAbsent] at hres ⊢
    · rw [hres.1]

/-- C4 amended, at the dispatcher of the test `MultiDispatcherBasic` called with
`("hello", 'c')`: only the third functor accepts, and the result is its `-1` (main.cpp),
the present optional holding `-1` (test copy). -/
theorem MultiDispatcher.result_is_accepting_functor_result_witness :
    (Tests.MultiDispatcherBasic.dispatcher Unit).operator_call
        [Val.cstr "hello", Val.char 'c'] () = (Outcome.ret (Val.int (-1)), ())
    ∧ Tests.MultiDispatcher.operator_call (Tests.MultiDispatcherBasic.dispatcher Unit)
        [Val.cstr "hello", Val.char 'c'] () = (Outcome.ret (Val.optionalInt (some (-1))), ()) := by
  have h := MultiDispatcher.result_is_accepting_functor_result
    (Tests.MultiDispatcherBasic.dispatcher Unit) [Val.cstr "hello", Val.char 'c'] () 2
    (by decide) (by rfl)
    (by
      intro j hj hlt
      interval_cases j <;> rfl)
  have hcall : ((Tests.MultiDispatcherBasic.dispatcher Unit).functors.get ⟨2, by decide⟩).call
      [Val.cstr "hello", Val.char 'c'] () = (Outcome.ret (Val.int (-1)), ()) := by
    simp [Tests.MultiDispatcherBasic.dispatcher, Lambda.toHandler, Lambda.invocable,
      Lambda.bindArgs, rankAll, bindParams, Param.rank, Param.bind, Val.typeOf]
  exact ⟨h.1.trans hcall, h.2.1 (-1) () hcall⟩

/-- C5, evaluated on the code: the dispatcher of the test `MultiDispatcherBasic` sends every
`(double, int)` call to its first functor `[](int i, double d)`, because
`std::is_invocable_v` holds when the arguments convert implicitly (`double → int`,
`int → double`): the call `(d, i)` returns `static_cast<int>(d) + i`, and `(2.5, 4)` returns
`6`, where the test expects the `8` of the second functor.  The calls `(5, 3.7)` and
`("hello", 'c')` return `8` and `-1` as the test expects. -/
theorem MultiDispatcher.basic_double_int_call_runs_first_functor :
    ((Tests.MultiDispatcherBasic.dispatcher Unit).functors.get ⟨0, by decide⟩).invocable
        [Ty.double, Ty.int] = true
    ∧ (∀ (d : ℚ) (i : Int),
        (Tests.MultiDispatcherBasic.dispatcher Unit).operator_call
          [Val.double d, Val.int i] () = (Outcome.ret (Val.int (truncToInt d + i)), ()))
    ∧ (Tests.MultiDispatcherBasic.dispatcher Unit).operator_call
        [Val.double 2.5, Val.int 4] () = (Outcome.ret (Val.int 6), ())
    ∧ Tests.MultiDispatcher.operator_call (Tests.MultiDispatcherBasic.dispatcher Unit)
        [Val.double 2.5, Val.int 4] () = (Outcome.ret (Val.optionalInt (some 6)), ())
    ∧ (Tests.MultiDispatcherBasic.dispatcher Unit).operator_call
        [Val.int 5, Val.double 3.7] () = (Outcome.ret (Val.int 8), ())
    ∧ (Tests.MultiDispatcherBasic.dispatcher Unit).operator_call
        [Val.cstr "hello", Val.char 'c'] () = (Outcome.ret (Val.int (-1)), ()) := by
  have hgen : ∀ (d : ℚ) (i : Int),
      (Tests.MultiDispatcherBasic.dispatcher Unit).operator_call
        [Val.double d, Val.int i] () = (Outcome.ret (Val.int (truncToInt d + i)), ()) := by
    intro d i
    simp [MultiDispatcher.operator_call, MultiDispatcher.try_dispatch,
      Tests.MultiDispatcherBasic.dispatcher, Lambda.toHandler, Lambda.invocable,
      Lambda.bindArgs, rankAll, bindParams, Param.rank, Param.bind, conversionRank, convert,
      Val.typeOf, Val.toNum, fromNum, Ty.isArithmetic, truncToInt_intCast]
  refine ⟨by decide, hgen, ?_, ?_, ?_, ?_⟩
  · rw [hgen, truncToInt_two_and_a_half]; rfl
  · simp [Tests.MultiDispatcher.operator_call, Tests.MultiDispatcher.try_dispatch,
      Tests.MultiDispatcherBasic.dispatcher, Lambda.toHandler, Lambda.invocable,
      Lambda.bindArgs, rankAll, bindParams, Param.rank, Param.bind, conversionRank, convert,
      Val.typeOf, Val.toNum, fromNum, Ty.isArithmetic, truncToInt_intCast,
      truncToInt_two_and_a_half, truncToInt_ofNat, returnAsOptionalInt]
  · simp [MultiDispatcher.operator_call, MultiDispatcher.try_dispatch,
      Tests.MultiDispatcherBasic.dispatcher, Lambda.toHandler, Lambda.invocable,
      Lambda.bindArgs, rankAll, bindParams, Param.rank, Param.bind, conversionRank, convert,
      Val.typeOf, truncToInt_three_point_seven]
  · simp [MultiDispatcher.operator_call, MultiDispatcher.try_dispatch,
      Tests.MultiDispatcherBasic.dispatcher, Lambda.toHandler, Lambda.invocable,
      Lambda.bindArgs, rankAll, bindParams, Param.rank, Param.bind, conversionRank, convert,
      Val.typeOf, Ty.isArithmetic]

/-- C9: for every functor list, argument list and state, when the first functor that accepts
the arguments throws `e`, `operator()` throws the same `e` and ends in the state that one
call left (no later functor has run); the outcome is not the absent value.  The copy in the
test file behaves the same. -/
theorem MultiDispatcher.failure_of_accepting_functor_propagates {σ : Type}
    (d : MultiDispatcher σ) (args : List Val) (s : σ) (i : Nat)
    (hi : i < d.functors.length)
    (hacc : (d.functors.get ⟨i, hi⟩).invocable (args.map Val.typeOf) = true)
    (hfirst : ∀ (j : Nat) (hj : j < d.functors.length), j < i →
      (d.functors.get ⟨j, hj⟩).invocable (args.map Val.typeOf) = false)
    (e : String) (t : σ)
    (hraise : (d.functors.get ⟨i, hi⟩).call args s = (Outcome.raise e, t)) :
    d.operator_call args s = (Outcome.raise e, t)
    ∧ Tests.MultiDispatcher.operator_call d args s = (Outcome.raise e, t)
    ∧ (∀ (u : σ), d.operator_call args s ≠ (Outcome.ret Val.nullopt, u))
    ∧ (∀ (u : σ), Tests.MultiDispatcher.operator_call d args s
        ≠ (Outcome.ret (Val.optionalInt none), u)) := by
  have hmain : d.operator_call args s = (Outcome.raise e, t) := by
    rw [← hraise]
    exact MultiDispatcher.try_dispatch_first d args s i hi hacc i 0 (by omega)
      (fun j hj _ hlt => hfirst j hj hlt)
  have hcopy : Tests.MultiDispatcher.operator_call d args s = (Outcome.raise e, t) := by
    unfold Tests.MultiDispatcher.operator_call
    rw [Tests.MultiDispatcher.try_dispatch_copy_first d args s i hi hacc i 0 (by omega)
      (fun j hj _ hlt => hfirst j hj hlt), hraise]
    rfl
  refine ⟨hmain, hcopy, ?_, ?_⟩
  · intro u h
    rw [hmain] at h
    cases h
  · intro u h
    rw [hcopy] at h
    cases h

/-- C9, at the dispatcher `[&](int) { ++calls; throw "boom"; }, [&](auto) { ++calls; return 0; }`
called with `(1)` and `calls = 0`: both functors accept, the first throws, and the call throws
`"boom"` with `calls = 1`. -/
theorem MultiDispatcher.failure_of_accepting_functor_propagates_witness :
    (Examples.throwingDispatcher.functors.get ⟨1, by decide⟩).invocable
        ([Val.int 1].map Val.typeOf) = true
    ∧ Examples.throwingDispatcher.operator_call [Val.int 1] 0 = (Outcome.raise "boom", 1)
    ∧ Tests.MultiDispatcher.operator_call Examples.throwingDispatcher [Val.int 1] 0
        = (Outcome.raise "boom", 1) := by
  have h := MultiDispatcher.failure_of_accepting_functor_propagates
    Examples.throwingDispatcher [Val.int 1] 0 0 (by decide) (by rfl)
    (by intro j hj hlt; omega) "boom" 1
    (by
      simp [Examples.throwingDispatcher, Lambda.toHandler, Lambda.invocable,
        Lambda.bindArgs, rankAll, bindParams, Param.rank, Param.bind, conversionRank, convert,
        Val.typeOf])
  exact ⟨by rfl, h.1, h.2.1⟩

/-! ## The visitation engine -/

/-- From index `I` with `args` already bound, `visit` binds the active alternatives of the
remaining variants, in order, after `args` and calls the visitor once. -/
theorem VariantTupleVisitor.visit_eq {σ : Type} (visitor : Handler σ)
    (tuple : List Variant) (s : σ) :
    ∀ (k I : Nat) (args : List Val), I + k = tuple.length →
      VariantTupleVisitor.visit visitor tuple I args s
        = visitor.call (args ++ (tuple.drop I).map Variant.active) s := by
  intro k
  induction k with
  | zero =>
    intro I args hI
    have hIl : I = tuple.length := by omega
    rw [VariantTupleVisitor.visit, if_pos hIl, hIl, List.drop_length]
    simp
  | succ k ih =>
    intro I args hI
    have hne : ¬ I = tuple.length := by omega
    have hlt : I < tuple.length := by omega
    rw [VariantTupleVisitor.visit, if_neg hne, dif_pos hlt]
    unfold std_visit
    show VariantTupleVisitor.visit visitor tuple (I + 1)
        (args ++ [(tuple.get ⟨I, hlt⟩).active]) s = _
    rw [ih (I + 1) (args ++ [(tuple.get ⟨I, hlt⟩).active]) (by omega)]
    have hdrop : tuple.drop I = tuple.get ⟨I, hlt⟩ :: tuple.drop (I + 1) :=
      List.drop_eq_getElem_cons hlt
    rw [hdrop, List.map_cons, List.append_assoc, List.singleton_append]

theorem multi_visit_eq {σ : Type} (f : Handler σ) (variants : List Variant) (s : σ) :
    multi_visit f variants s = f.call (variants.map Variant.active) s := by
  unfold multi_visit
  rw [VariantTupleVisitor.visit_eq f variants s variants.length 0 [] (by omega)]
  simp

theorem multi_visit_tuple_eq {σ : Type} (f : Handler σ) (tuple : List Variant) (s : σ) :
    multi_visit_tuple f tuple s = multi_visit f tuple s := by
  unfold multi_visit_tuple apply_with_index apply_with_index_impl
  rw [List.finRange_map_get]

/-- Scenario of the test `TwoVariantsDispatch`: `variant<A, B>` holding `A{10}` and
`variant<B, C>` holding `C{'X'}` give `"A=10,C=X"`. -/
theorem multi_visit_two_variants :
    multi_visit (Tests.TwoVariantsDispatch.handler Unit)
      [Tests.TwoVariantsDispatch.v1, Tests.TwoVariantsDispatch.v2] ()
      = (Outcome.ret (Val.string "A=10,C=X"), ()) := by
  rw [multi_visit_eq]
  simp [Tests.TwoVariantsDispatch.handler, Tests.TwoVariantsDispatch.lambda,
    Tests.TwoVariantsDispatch.v1,
    Tests.TwoVariantsDispatch.v2, Lambda.toHandler, Lambda.invocable, Lambda.bindArgs,
    rankAll, bindParams, Param.rank, Param.bind, Val.typeOf]
  decide

/-- C6: for every handler, every tuple `seq` of `k ≥ 0` variants and every state,
`multi_visit_tuple(h, seq)` has the same result and end state as
`multi_visit(h, seq[0], ..., seq[k-1])`, both being the one call of `h` on the active
alternatives of the elements of `seq`, in order. -/
theorem multi_visit_tuple_same_as_multi_visit {σ : Type} (f : Handler σ)
    (seq : List Variant) (s : σ) :
    multi_visit_tuple f seq s = multi_visit f seq s
    ∧ multi_visit_tuple f seq s = f.call (seq.map Variant.active) s
    ∧ (∀ (log : List (List Val)),
        multi_visit_tuple Examples.recorder seq log = multi_visit Examples.recorder seq log
        ∧ multi_visit_tuple Examples.recorder seq log
            = (Outcome.ret Val.void, log ++ [seq.map Variant.active])) := by
  refine ⟨multi_visit_tuple_eq f seq s, ?_, ?_⟩
  · rw [multi_visit_tuple_eq, multi_visit_eq]
  · intro log
    refine ⟨multi_visit_tuple_eq _ seq log, ?_⟩
    rw [multi_visit_tuple_eq, multi_visit_eq]
    rfl

/-- C7: with no variants, `multi_visit(h)` and `multi_visit_tuple(h, std::tuple<>())` are
exactly one call of `h` with the empty argument list, for every handler `h`: the logging
handler logs one empty argument list, and the handler `[&counter]() { counter++; }` of the
test `EmptyTuple` leaves `counter` increased by exactly `1`. -/
theorem multi_visit_empty_calls_handler_once {σ : Type} (f : Handler σ) (s : σ)
    (log : List (List Val)) (counter : Nat) :
    multi_visit f [] s = f.call [] s
    ∧ multi_visit_tuple f [] s = f.call [] s
    ∧ multi_visit Examples.recorder [] log = (Outcome.ret Val.void, log ++ [[]])
    ∧ multi_visit_tuple Examples.recorder [] log = (Outcome.ret Val.void, log ++ [[]])
    ∧ multi_visit Tests.EmptyTuple.handler [] counter = (Outcome.ret Val.void, counter + 1)
    ∧ multi_visit_tuple Tests.EmptyTuple.handler [] counter
        = (Outcome.ret Val.void, counter + 1) := by
  refine ⟨multi_visit_eq f [] s, ?_, ?_, ?_, ?_, ?_⟩
  · rw [multi_visit_tuple_eq, multi_visit_eq]; rfl
  · rw [multi_visit_eq]; rfl
  · rw [multi_visit_tuple_eq, multi_visit_eq]; rfl
  · rw [multi_visit_eq]; rfl
  · rw [multi_visit_tuple_eq, multi_visit_eq]; rfl

/-- The base selected by overload resolution exists and accepts the arguments. -/
theorem overloaded.resolve_some {σ : Type} (o : overloaded σ) (tys : List Ty) (i : Nat)
    (hsel : o.resolve tys = some i) :
    ∃ l, o.Ts.get? i = some l ∧ l.invocable tys = true := by
  have hbest : o.isBest tys i = true := List.find?_some hsel
  unfold overloaded.isBest at hbest
  cases hget : o.Ts.get? i with
  | none => rw [hget] at hbest; cases hbest
  | some l =>
    rw [hget] at hbest
    simp only [Bool.and_eq_true] at hbest
    exact ⟨l, rfl, hbest.1⟩

/-- A base that alone accepts the arguments is the one selected. -/
theorem overloaded.resolve_unique {σ : Type} (o : overloaded σ) (tys : List Ty) (i : Nat)
    (l : Lambda σ) (hget : o.Ts.get? i = some l) (hacc : l.invocable tys = true)
    (honly : ∀ (j : Nat) (m : Lambda σ), j ≠ i → o.Ts.get? j = some m →
      m.invocable tys = false) :
    o.resolve tys = some i := by
  have hi : i < o.Ts.length := by
    rcases List.get?_eq_some.mp hget with ⟨h, _⟩
    exact h
  have hbest : o.isBest tys i = true := by
    unfold overloaded.isBest
    rw [hget]
    simp only [Bool.and_eq_true, List.all_eq_true, Bool.or_eq_true, beq_iff_eq]
    refine ⟨hacc, ?_⟩
    intro j _
    by_cases hji : j = i
    · exact Or.inl hji
    · right
      cases hm : o.Ts.get? j with
      | none => rfl
      | some m => simp [honly j m hji hm]
  have hsome : (o.resolve tys).isSome = true :=
    List.find?_isSome.mpr ⟨i, List.mem_range.mpr hi, hbest⟩
  cases hres : o.resolve tys with
  | none => rw [hres] at hsome; cases hsome
  | some k =>
    rcases overloaded.resolve_some o tys k hres with ⟨m, hm, hmacc⟩
    by_cases hki : k = i
    · rw [hki]
    · rw [honly k m hki hm] at hmacc
      cases hmacc

/-- Two rank lists each pointwise no worse than the other differ nowhere. -/
theorem ranks_no_strict_of_le_le :
    ∀ (r1 r2 : List Nat),
      (List.zipWith (fun a b => decide (a ≤ b)) r1 r2).all id = true →
      (List.zipWith (fun a b => decide (a ≤ b)) r2 r1).all id = true →
      (List.zipWith (fun a b => decide (a < b)) r1 r2).any id = false := by
  intro r1
  induction r1 with
  | nil => intro r2 _ _; rfl
  | cons a r1 ih =>
    intro r2 h12 h21
    cases r2 with
    | nil => rfl
    | cons b r2 =>
      simp only [List.zipWith_cons_cons, List.all_cons, List.any_cons, id,
        Bool.and_eq_true, decide_eq_true_eq, Bool.or_eq_false_iff,
        decide_eq_false_iff_not] at h12 h21 ⊢
      exact ⟨by omega, ih r2 h12.2 h21.2⟩

theorem Slot.deduce_swap (s1 s2 : Slot) :
    Slot.deduce s2 s1
      = ((Slot.deduce s1 s2).2.1, (Slot.deduce s1 s2).1, (Slot.deduce s1 s2).2.2) := by
  cases s1 <;> cases s2 <;> rfl

/-- The partial ordering is symmetric in its two templates: exchanging them exchanges who
has lost. -/
theorem Lambda.orderLoop_swap {σ : Type} (l1 l2 : Lambda σ) :
    ∀ (len k : Nat) (a b : Bool),
      Lambda.orderLoop l2 l1 len k b a
        = ((Lambda.orderLoop l1 l2 len k a b).1, (Lambda.orderLoop l1 l2 len k a b).2.2,
            (Lambda.orderLoop l1 l2 len k a b).2.1) := by
  intro len
  induction len with
  | zero => intro k a b; rfl
  | succ len ih =>
    intro k a b
    simp only [Lambda.orderLoop]
    rw [Slot.deduce_swap (l1.slotAt k) (l2.slotAt k)]
    generalize Slot.deduce (l1.slotAt k) (l2.slotAt k) = d
    rcases d with ⟨d1, d2, last⟩
    cases a <;> cases b <;> cases d1 <;> cases d2 <;> cases last <;> simp [ih]

theorem Lambda.moreSpecialized_asymm {σ : Type} (l1 l2 : Lambda σ) (n : Nat)
    (h : l1.moreSpecialized l2 n = true) : l2.moreSpecialized l1 n = false := by
  unfold Lambda.moreSpecialized Lambda.orderLosers at h ⊢
  rw [Lambda.orderLoop_swap l1 l2 n 0 false false]
  generalize Lambda.orderLoop l1 l2 n 0 false false = r at h ⊢
  rcases r with ⟨k, a, b⟩
  simp only at h ⊢
  cases a <;> cases b <;>
    cases hp1 : decide (l1.slotAt k = Slot.pack) <;>
    cases hp2 : decide (l2.slotAt k = Slot.pack) <;>
    simp_all

/-- Of two candidates at most one is the better. -/
theorem Lambda.better_asymm {σ : Type} (l m : Lambda σ) (tys : List Ty)
    (h : l.better m tys = true) : m.better l tys = false := by
  unfold Lambda.better at h ⊢
  cases h1 : rankAll l.params l.pack tys with
  | none => simp [h1] at h
  | some r1 =>
    cases h2 : rankAll m.params m.pack tys with
    | none => simp [h1, h2] at h
    | some r2 =>
      rw [h1, h2] at h
      simp only [Bool.and_eq_true] at h
      show ((List.zipWith (fun a b => decide (a ≤ b)) r2 r1).all id &&
        ((List.zipWith (fun a b => decide (a < b)) r2 r1).any id
          || (!m.isTemplate && l.isTemplate)
          || (m.isTemplate && l.isTemplate && m.moreSpecialized l tys.length))) = false
      cases hle : (List.zipWith (fun a b => decide (a ≤ b)) r2 r1).all id with
      | false => rfl
      | true =>
        have hno := ranks_no_strict_of_le_le r1 r2 h.1 hle
        have hno2 := ranks_no_strict_of_le_le r2 r1 hle h.1
        have h' := h.2
        rw [hno] at h'
        rw [hno2]
        cases hms : l.moreSpecialized m tys.length with
        | true =>
          rw [Lambda.moreSpecialized_asymm l m _ hms]
          rw [hms] at h'
          revert h'
          cases l.isTemplate <;> cases m.isTemplate <;> decide
        | false =>
          rw [hms] at h'
          revert h'
          cases l.isTemplate <;> cases m.isTemplate <;>
            cases m.moreSpecialized l tys.length <;> decide

/-- The selected base is a better candidate than every other base that accepts the
arguments. -/
theorem overloaded.resolve_better {σ : Type} (o : overloaded σ) (tys : List Ty) (i : Nat)
    (l : Lambda σ) (hsel : o.resolve tys = some i) (hget : o.Ts.get? i = some l)
    (j : Nat) (m : Lambda σ) (hji : j ≠ i) (hm : o.Ts.get? j = some m)
    (hacc : m.invocable tys = true) : l.better m tys = true := by
  have hbest : o.isBest tys i = true := List.find?_some hsel
  unfold overloaded.isBest at hbest
  rw [hget] at hbest
  simp only [Bool.and_eq_true, List.all_eq_true, Bool.or_eq_true, beq_iff_eq] at hbest
  have hj : j < o.Ts.length := (List.get?_eq_some.mp hm).1
  rcases hbest.2 j (List.mem_range.mpr hj) with h | h
  · exact absurd h hji
  · rw [hm] at h
    simpa [hacc] using h

theorem rankAll_exact :
    ∀ (tys : List Ty), rankAll (tys.map Param.typed) false tys = some (tys.map (fun _ => 0)) := by
  intro tys
  induction tys with
  | nil => rfl
  | cons t tys ih => simp [rankAll, Param.rank, conversionRank, ih]


theorem conversionRank_zero_iff (a p : Ty) : conversionRank a p = some 0 ↔ a = p := by
  cases a <;> cases p <;> simp [conversionRank, Ty.isArithmetic]

theorem ranks_zero_le :
    ∀ (tys : List Ty) (rs : List Nat),
      (List.zipWith (fun a b => decide (a ≤ b)) (tys.map (fun _ => 0)) rs).all id = true := by
  intro tys
  induction tys with
  | nil => intro rs; rfl
  | cons t tys ih =>
    intro rs
    cases rs with
    | nil => rfl
    | cons r rs =>
      simp only [List.map_cons, List.zipWith_cons_cons, List.all_cons, id, Nat.zero_le,
        decide_True, Bool.true_and]
      exact ih rs

/-- A list of named parameter types that accepts the argument types without being the list
of the argument types themselves needs a conversion somewhere. -/
theorem ranks_exact_strict :
    ∀ (ps : List Param) (tys : List Ty) (rs : List Nat),
      (∀ p ∈ ps, p ≠ Param.generic) → rankAll ps false tys = some rs →
      ps ≠ tys.map Param.typed →
      (List.zipWith (fun a b => decide (a < b)) (tys.map (fun _ => 0)) rs).any id = true := by
  intro ps
  induction ps with
  | nil =>
    intro tys rs _ hr hne
    cases tys with
    | nil => exact absurd rfl hne
    | cons a tys => simp [rankAll] at hr
  | cons p ps ih =>
    intro tys rs hgen hr hne
    cases tys with
    | nil => simp [rankAll] at hr
    | cons a tys =>
      cases p with
      | generic => exact absurd rfl (hgen Param.generic (List.mem_cons_self _ _))
      | typed t =>
        simp only [rankAll, Param.rank] at hr
        cases hc : conversionRank a t with
        | none => simp [hc] at hr
        | some r =>
          cases hrs : rankAll ps false tys with
          | none => simp [hc, hrs] at hr
          | some rs' =>
            simp only [hc, hrs, Option.some_bind, Option.map_some', Option.some.injEq] at hr
            subst hr
            by_cases hta : a = t
            · subst hta
              have hne' : ps ≠ tys.map Param.typed := by
                intro h
                apply hne
                rw [h]
                rfl
              have := ih tys rs' (fun q hq => hgen q (List.mem_cons_of_mem _ hq)) hrs hne'
              simp only [List.map_cons, List.zipWith_cons_cons, List.any_cons, id,
                Bool.or_eq_true]
              exact Or.inr this
            · have hr0 : r ≠ 0 := by
                intro h0
                rw [h0] at hc
                exact hta ((conversionRank_zero_iff a t).mp hc)
              have : 0 < r := Nat.pos_of_ne_zero hr0
              simp only [List.map_cons, List.zipWith_cons_cons, List.any_cons, id,
                Bool.or_eq_true, decide_eq_true_eq]
              exact Or.inl this

/-- A lambda that names exactly the argument types is a better candidate than every other
accepting lambda that is generic or declares another parameter list. -/
theorem Lambda.exact_better {σ : Type} (l m : Lambda σ) (tys : List Ty)
    (hpack : l.pack = false) (hparams : l.params = tys.map Param.typed)
    (hacc : m.invocable tys = true)
    (hdiff : m.isTemplate = true ∨ m.params ≠ l.params) : l.better m tys = true := by
  have hlt : l.isTemplate = false := by
    simp [Lambda.isTemplate, hpack, hparams]
  unfold Lambda.better
  rw [hparams, hpack, rankAll_exact]
  unfold Lambda.invocable at hacc
  cases hrs : rankAll m.params m.pack tys with
  | none => rw [hrs] at hacc; cases hacc
  | some rs =>
    simp only [ranks_zero_le, Bool.true_and, hlt, Bool.not_false, Bool.false_and,
      Bool.or_false]
    cases hmt : m.isTemplate with
    | true => simp
    | false =>
      rcases hdiff with h | h
      · rw [hmt] at h; cases h
      · have hm : m.pack = false ∧ ∀ p ∈ m.params, p ≠ Param.generic := by
          simpa [Lambda.isTemplate] using hmt
        rw [hm.1] at hrs
        rw [hparams] at h
        rw [ranks_exact_strict m.params tys rs hm.2 hrs h]
        rfl

theorem get?_reverse_index {α : Type} (l : List α) (k : Nat) (hk : k < l.length) :
    l.reverse.get? k = l.get? (l.length - 1 - k) := by
  rw [List.get?_eq_getElem?, List.get?_eq_getElem?, List.getElem?_reverse hk]

/-- Base `i` is the best viable candidate exactly when it accepts the arguments and is a
better candidate than every other base that accepts them. -/
theorem overloaded.isBest_iff {σ : Type} (o : overloaded σ) (tys : List Ty) (i : Nat) :
    o.isBest tys i = true ↔
      ∃ l, o.Ts.get? i = some l ∧ l.invocable tys = true ∧
        ∀ (j : Nat) (m : Lambda σ), j ≠ i → o.Ts.get? j = some m →
          m.invocable tys = true → l.better m tys = true := by
  unfold overloaded.isBest
  cases hget : o.Ts.get? i with
  | none => simp
  | some l =>
    simp only [Bool.and_eq_true, List.all_eq_true, List.mem_range, Bool.or_eq_true,
      beq_iff_eq, Option.some.injEq, exists_eq_left']
    constructor
    · rintro ⟨hacc, hall⟩
      refine ⟨hacc, ?_⟩
      intro j m hji hm hmacc
      have hj : j < o.Ts.length := (List.get?_eq_some.mp hm).1
      rcases hall j hj with h | h
      · exact absurd h hji
      · rw [hm] at h
        simpa [hmacc] using h
    · rintro ⟨hacc, hall⟩
      refine ⟨hacc, ?_⟩
      intro j _
      by_cases hji : j = i
      · exact Or.inl hji
      · right
        cases hm : o.Ts.get? j with
        | none => rfl
        | some m =>
          cases hmacc : m.invocable tys with
          | false => simp [hmacc]
          | true => simp [hall j m hji hm hmacc]

/-- There is at most one best viable candidate, and overload resolution finds it. -/
theorem overloaded.resolve_of_isBest {σ : Type} (o : overloaded σ) (tys : List Ty) (i : Nat)
    (hbest : o.isBest tys i = true) : o.resolve tys = some i := by
  rcases (overloaded.isBest_iff o tys i).mp hbest with ⟨l, hget, hacc, hall⟩
  have hi : i < o.Ts.length := (List.get?_eq_some.mp hget).1
  have hsome : (o.resolve tys).isSome = true :=
    List.find?_isSome.mpr ⟨i, List.mem_range.mpr hi, hbest⟩
  cases hres : o.resolve tys with
  | none => rw [hres] at hsome; cases hsome
  | some k =>
    by_cases hki : k = i
    · rw [hki]
    · have hkbest : o.isBest tys k = true := List.find?_some hres
      rcases (overloaded.isBest_iff o tys k).mp hkbest with ⟨m, hgetk, hacck, hallk⟩
      have h1 := hall k m hki hgetk hacck
      have h2 := hallk i l (fun h => hki h.symm) hget hacc
      rw [Lambda.better_asymm l m tys h1] at h2
      cases h2

/-- The call of an `overloaded` object whose best viable candidate is base `i`. -/
theorem overloaded.call_of_isBest {σ : Type} (o : overloaded σ) (args : List Val) (s : σ)
    (i : Nat) (l : Lambda σ) (hget : o.Ts.get? i = some l)
    (hbest : o.isBest (args.map Val.typeOf) i = true) :
    o.operator_call args s = l.toHandler.call args s := by
  unfold overloaded.operator_call
  rw [overloaded.resolve_of_isBest o _ i hbest]
  simp only [hget]

/-- A base that names exactly the argument types is called when every other accepting base
is generic or declares another parameter list. -/
theorem overloaded.exact_call {σ : Type} (o : overloaded σ) (args : List Val) (s : σ)
    (i : Nat) (l : Lambda σ) (hget : o.Ts.get? i = some l) (hpack : l.pack = false)
    (hparams : l.params = (args.map Val.typeOf).map Param.typed)
    (hothers : ∀ (j : Nat) (m : Lambda σ), j ≠ i → o.Ts.get? j = some m →
      m.invocable (args.map Val.typeOf) = true →
      m.isTemplate = true ∨ m.params ≠ l.params) :
    o.operator_call args s = l.toHandler.call args s := by
  apply overloaded.call_of_isBest o args s i l hget
  rw [overloaded.isBest_iff]
  refine ⟨l, hget, ?_, ?_⟩
  · unfold Lambda.invocable
    rw [hparams, hpack, rankAll_exact]
    rfl
  · intro j m hji hm hmacc
    exact Lambda.exact_better l m _ hpack hparams hmacc (hothers j m hji hm hmacc)

/-- Base `k` of the reversed list is the best viable candidate exactly when the same base,
at its place in the original list, is. -/
theorem overloaded.isBest_reverse {σ : Type} (o : overloaded σ) (tys : List Ty) (k : Nat)
    (hk : k < o.Ts.length) :
    (overloaded.mk o.Ts.reverse).isBest tys k = true
      ↔ o.isBest tys (o.Ts.length - 1 - k) = true := by
  rw [overloaded.isBest_iff, overloaded.isBest_iff]
  show (∃ l, o.Ts.reverse.get? k = some l ∧ l.invocable tys = true ∧
      ∀ (j : Nat) (m : Lambda σ), j ≠ k → o.Ts.reverse.get? j = some m →
        m.invocable tys = true → l.better m tys = true) ↔ _
  rw [get?_reverse_index o.Ts k hk]
  constructor
  · rintro ⟨l, hget, hacc, hall⟩
    refine ⟨l, hget, hacc, ?_⟩
    intro j m hj hm hmacc
    have hjl : j < o.Ts.length := (List.get?_eq_some.mp hm).1
    have hrev : o.Ts.reverse.get? (o.Ts.length - 1 - j) = some m := by
      rw [get?_reverse_index o.Ts _ (by omega)]
      rw [show o.Ts.length - 1 - (o.Ts.length - 1 - j) = j by omega]
      exact hm
    exact hall (o.Ts.length - 1 - j) m (by omega) hrev hmacc
  · rintro ⟨l, hget, hacc, hall⟩
    refine ⟨l, hget, hacc, ?_⟩
    intro j m hj hm hmacc
    have hjl : j < o.Ts.length := by
      have := (List.get?_eq_some.mp hm).1
      rwa [List.length_reverse] at this
    rw [get?_reverse_index o.Ts j hjl] at hm
    exact hall (o.Ts.length - 1 - j) m (by omega) hm hmacc

/-- Declaring the bases in the opposite order changes nothing in a call. -/
theorem overloaded.reverse_call {σ : Type} (o : overloaded σ) (args : List Val) (s : σ) :
    (overloaded.mk o.Ts.reverse).operator_call args s = o.operator_call args s := by
  cases hres : o.resolve (args.map Val.typeOf) with
  | some i =>
    have hbest : o.isBest (args.map Val.typeOf) i = true := List.find?_some hres
    rcases (overloaded.isBest_iff o _ i).mp hbest with ⟨l, hget, _, _⟩
    have hi : i < o.Ts.length := (List.get?_eq_some.mp hget).1
    have hk : o.Ts.length - 1 - i < o.Ts.length := by omega
    have hback : o.Ts.length - 1 - (o.Ts.length - 1 - i) = i := by omega
    have hrbest : (overloaded.mk o.Ts.reverse).isBest (args.map Val.typeOf)
        (o.Ts.length - 1 - i) = true := by
      rw [overloaded.isBest_reverse o _ _ hk, hback]
      exact hbest
    have hrget : (overloaded.mk o.Ts.reverse).Ts.get? (o.Ts.length - 1 - i) = some l := by
      show o.Ts.reverse.get? (o.Ts.length - 1 - i) = some l
      rw [get?_reverse_index o.Ts _ hk, hback]
      exact hget
    rw [overloaded.call_of_isBest _ args s _ l hrget hrbest,
      overloaded.call_of_isBest o args s i l hget hbest]
  | none =>
    have hrnone : (overloaded.mk o.Ts.reverse).resolve (args.map Val.typeOf) = none := by
      cases hr : (overloaded.mk o.Ts.reverse).resolve (args.map Val.typeOf) with
      | none => rfl
      | some k =>
        have hkbest : (overloaded.mk o.Ts.reverse).isBest (args.map Val.typeOf) k = true :=
          List.find?_some hr
        rcases (overloaded.isBest_iff _ _ k).mp hkbest with ⟨l, hget, _, _⟩
        have hk : k < o.Ts.length := by
          have := (List.get?_eq_some.mp hget).1
          rwa [show (overloaded.mk o.Ts.reverse).Ts.length = o.Ts.length
            from List.length_reverse _] at this
        have := overloaded.resolve_of_isBest o _ _
          ((overloaded.isBest_reverse o _ k hk).mp hkbest)
        rw [hres] at this
        cases this
    unfold overloaded.operator_call
    rw [hres, hrnone]

theorem rankAll_generic :
    ∀ (tys : List Ty),
      rankAll (List.replicate tys.length Param.generic) false tys
        = some (tys.map (fun _ => 0)) := by
  intro tys
  induction tys with
  | nil => rfl
  | cons t tys ih => simp [rankAll, Param.rank, List.replicate_succ, ih]

/-- A generic lambda with one generic parameter for each argument is a better candidate
than the pack catch-all `[](auto...)`. -/
theorem Lambda.fixed_generic_better_than_pack {σ : Type} (g c : Lambda σ) (tys : List Ty)
    (hgpack : g.pack = false) (hgparams : g.params = List.replicate tys.length Param.generic)
    (hcpack : c.pack = true) (hcparams : c.params = []) : g.better c tys = true := by
  unfold Lambda.better
  rw [hgparams, hgpack, hcparams, hcpack, rankAll_generic]
  have hc : rankAll [] true tys = some (tys.map (fun _ => 0)) := by
    simp [rankAll]
  rw [hc]
  simp only [ranks_zero_le, Bool.true_and]
  have hct : c.isTemplate = true := by simp [Lambda.isTemplate, hcpack]
  cases tys with
  | nil =>
    have hgt : g.isTemplate = false := by
      simp [Lambda.isTemplate, hgpack, hgparams]
    simp [hgt, hct]
  | cons t tys =>
    have hgt : g.isTemplate = true := by
      simp [Lambda.isTemplate, hgparams, List.replicate_succ]
    have hms : g.moreSpecialized c (t :: tys).length = true := by
      simp [Lambda.moreSpecialized, Lambda.orderLosers, Lambda.orderLoop, Lambda.slotAt,
        Slot.deduce, hgparams, hcparams, hcpack, List.replicate_succ]
    rw [hgt, hct, hms]
    simp

/-- Of two constituents, the one that accepts the arguments and is a better candidate than
the other is called, whichever is declared first. -/
theorem overloaded.pair_call {σ : Type} (l m : Lambda σ) (args : List Val) (s : σ)
    (hacc : l.invocable (args.map Val.typeOf) = true)
    (hbetter : l.better m (args.map Val.typeOf) = true) :
    (overloaded.mk [m, l]).operator_call args s = l.toHandler.call args s
    ∧ (overloaded.mk [l, m]).operator_call args s = l.toHandler.call args s := by
  constructor
  · apply overloaded.call_of_isBest (overloaded.mk [m, l]) args s 1 l rfl
    rw [overloaded.isBest_iff]
    refine ⟨l, rfl, hacc, ?_⟩
    intro j k hj hk _
    have hlt : j < 2 := (List.get?_eq_some.mp hk).1
    have hj0 : j = 0 := by omega
    subst hj0
    cases hk
    exact hbetter
  · apply overloaded.call_of_isBest (overloaded.mk [l, m]) args s 0 l rfl
    rw [overloaded.isBest_iff]
    refine ⟨l, rfl, hacc, ?_⟩
    intro j k hj hk _
    have hlt : j < 2 := (List.get?_eq_some.mp hk).1
    have hj1 : j = 1 := by omega
    subst hj1
    cases hk
    exact hbetter

/-- Calls of `overloaded` objects as the compiler resolves them (GCC 12, `-std=c++20`): a
fixed generic parameter list wins over `auto...` in either order; `(auto, auto)` wins over
`(int, auto...)`; `(B, auto)` wins over `(auto, auto)`; `(auto, int)` against `(int, auto)` is
ambiguous; for a string literal `bool` wins over `std::string`; for an `int`, `char` against
`double` is ambiguous; for a `char`, `int` wins over `double`. -/
theorem overloaded.resolution_examples :
    (overloaded.mk [Examples.candidate [Param.generic, Param.generic] false 1,
        Examples.candidate [] true 2]).operator_call [Val.int 3, Val.int 4] ()
      = (Outcome.ret (Val.int 1), ())
    ∧ (overloaded.mk [Examples.candidate [] true 2,
        Examples.candidate [Param.generic, Param.generic] false 1]).operator_call
        [Val.int 3, Val.int 4] () = (Outcome.ret (Val.int 1), ())
    ∧ (overloaded.mk [Examples.candidate [Param.typed Ty.int] true 1,
        Examples.candidate [Param.generic, Param.generic] false 2]).operator_call
        [Val.int 3, Val.int 4] () = (Outcome.ret (Val.int 2), ())
    ∧ (overloaded.mk [Examples.candidate [Param.typed Ty.B, Param.generic] false 1,
        Examples.candidate [Param.generic, Param.generic] false 2]).operator_call
        [Val.B 1, Val.int 4] () = (Outcome.ret (Val.int 1), ())
    ∧ (overloaded.mk [Examples.candidate [Param.generic, Param.typed Ty.int] false 1,
        Examples.candidate [Param.typed Ty.int, Param.generic] false 2]).operator_call
        [Val.int 3, Val.int 4] () = (Outcome.illFormed, ())
    ∧ (overloaded.mk [Examples.candidate [Param.typed Ty.bool] false 1,
        Examples.candidate [Param.typed Ty.string] false 2]).operator_call
        [Val.cstr "hello"] () = (Outcome.ret (Val.int 1), ())
    ∧ (overloaded.mk [Examples.candidate [Param.typed Ty.char] false 1,
        Examples.candidate [Param.typed Ty.double] false 2]).operator_call
        [Val.int 3] () = (Outcome.illFormed, ())
    ∧ (overloaded.mk [Examples.candidate [Param.typed Ty.int] false 1,
        Examples.candidate [Param.typed Ty.double] false 2]).operator_call
        [Val.char 'c'] () = (Outcome.ret (Val.int 1), ()) := by
  refine ⟨by decide, by decide, by decide, by decide, by decide, by decide, by decide,
    by decide⟩

/-- C10, as stated, fails: both bases of
`overloaded{ [](int, double) { return 1; }, [](double, int) { return 2; } }` accept the
arguments `(1, 2)`, each by one exact match and one conversion, so neither is the better
candidate and the call is ambiguous: it is rejected and behaves as neither base, which on
their own return `1` and `2`. -/
theorem overloaded.ambiguous_call_is_no_constituent :
    (∀ l ∈ (Examples.crossed Unit).Ts, l.invocable ([Val.int 1, Val.int 2].map Val.typeOf) = true)
    ∧ (Examples.crossed Unit).operator_call [Val.int 1, Val.int 2] () = (Outcome.illFormed, ())
    ∧ (Examples.crossed Unit).Ts.map (fun l => l.toHandler.call [Val.int 1, Val.int 2] ())
        = [(Outcome.ret (Val.int 1), ()), (Outcome.ret (Val.int 2), ())] := by
  refine ⟨by decide, by decide, ?_⟩
  simp [Examples.crossed, Lambda.toHandler, Lambda.invocable, Lambda.bindArgs, rankAll,
    bindParams, Param.rank, Param.bind, conversionRank, convert, Val.typeOf, Val.toNum,
    fromNum, Ty.isArithmetic]

/-- C10, amended: for every list of constituents, argument list and state, a call of the
`overloaded` object is either rejected at build time, running nothing, or is the call of
exactly one constituent that accepts the arguments (same result, same end state).  It is
the call of constituent `i` whenever `i` is the only constituent that accepts the
arguments, and whenever `i` is not generic and names exactly the argument types while every
other accepting constituent is generic or declares another parameter list; it is rejected
when no constituent accepts.  (With several accepting constituents of which none is the best
match it is rejected as ambiguous.) -/
theorem overloaded.call_is_call_of_selected_constituent {σ : Type} (o : overloaded σ)
    (args : List Val) (s : σ) :
    (o.operator_call args s = (Outcome.illFormed, s)
      ∨ ∃ (i : Nat) (l : Lambda σ), o.Ts.get? i = some l
          ∧ l.invocable (args.map Val.typeOf) = true
          ∧ o.operator_call args s = l.toHandler.call args s)
    ∧ (∀ (i : Nat) (l : Lambda σ), o.Ts.get? i = some l →
        l.invocable (args.map Val.typeOf) = true →
        (∀ (j : Nat) (m : Lambda σ), j ≠ i → o.Ts.get? j = some m →
          m.invocable (args.map Val.typeOf) = false) →
        o.operator_call args s = l.toHandler.call args s)
    ∧ (∀ (i : Nat) (l : Lambda σ), o.Ts.get? i = some l → l.pack = false →
        l.params = (args.map Val.typeOf).map Param.typed →
        (∀ (j : Nat) (m : Lambda σ), j ≠ i → o.Ts.get? j = some m →
          m.invocable (args.map Val.typeOf) = true →
          m.isTemplate = true ∨ m.params ≠ l.params) →
        o.operator_call args s = l.toHandler.call args s)
    ∧ ((∀ (j : Nat) (m : Lambda σ), o.Ts.get? j = some m →
          m.invocable (args.map Val.typeOf) = false) →
        o.operator_call args s = (Outcome.illFormed, s)) := by
  refine ⟨?_, ?_, ?_, ?_⟩
  · cases hres : o.resolve (args.map Val.typeOf) with
    | none =>
      left
      unfold overloaded.operator_call
      rw [hres]
    | some i =>
      right
      rcases overloaded.resolve_some o _ i hres with ⟨l, hget, hacc⟩
      refine ⟨i, l, hget, hacc, ?_⟩
      unfold overloaded.operator_call
      rw [hres]
      simp only [hget]
  · intro i l hget hacc honly
    have hsel := overloaded.resolve_unique o _ i l hget hacc honly
    unfold overloaded.operator_call
    rw [hsel]
    simp only [hget]
  · intro i l hget hpack hparams hothers
    exact overloaded.exact_call o args s i l hget hpack hparams hothers
  · intro hnone
    cases hres : o.resolve (args.map Val.typeOf) with
    | none =>
      unfold overloaded.operator_call
      rw [hres]
    | some i =>
      rcases overloaded.resolve_some o _ i hres with ⟨l, hget, hacc⟩
      rw [hnone i l hget] at hacc
      cases hacc

/-- C10 amended, at the visitor of the test `OverloadedPattern` over
`variant<int, double, std::string>` holding `"hello"`: only the constituent taking a
`const std::string&` accepts, the call is its call, and `multi_visit` returns the length
`5`. -/
theorem overloaded.call_is_call_of_selected_constituent_witness :
    (Tests.OverloadedPattern.visitor Unit).operator_call [Val.string "hello"] ()
        = (Outcome.ret (Val.int 5), ())
    ∧ multi_visit (Tests.OverloadedPattern.visitor Unit).toHandler
        [Tests.OverloadedPattern.v] () = (Outcome.ret (Val.int 5), ()) := by
  have h := (overloaded.call_is_call_of_selected_constituent
    (Tests.OverloadedPattern.visitor Unit) [Val.string "hello"] ()).2.1 2
    ((Tests.OverloadedPattern.visitor Unit).Ts.get ⟨2, by decide⟩) (by rfl) (by decide)
    (by
      intro j m hj hm
      have hlt : j < 3 := (List.get?_eq_some.mp hm).1
      interval_cases j
      · cases hm; decide
      · cases hm; decide
      · exact absurd rfl hj)
  have hval : ((Tests.OverloadedPattern.visitor Unit).Ts.get ⟨2, by decide⟩).toHandler.call
      [Val.string "hello"] () = (Outcome.ret (Val.int 5), ()) := by
    simp [Tests.OverloadedPattern.visitor, Lambda.toHandler, Lambda.invocable,
      Lambda.bindArgs, rankAll, bindParams, Param.rank, Param.bind, conversionRank, convert,
      Val.typeOf]
    decide
  refine ⟨h.trans hval, ?_⟩
  rw [multi_visit_eq]
  exact h.trans hval

/-- C11, as stated, fails: in
`overloaded{ [](auto, auto) { return -1; }, [](int val, int val2) { return val + val2; } }`
both constituents accept `(int, int)`, the generic catch-all is declared first, and the call
`(10, 20)` selects the second constituent and returns `30`; the first on its own returns
`-1`. -/
theorem overloaded.later_exact_constituent_selected :
    (∀ l ∈ (Examples.catchAllFirst Unit).Ts,
        l.invocable ([Val.int 10, Val.int 20].map Val.typeOf) = true)
    ∧ (Examples.catchAllFirst Unit).resolve ([Val.int 10, Val.int 20].map Val.typeOf) = some 1
    ∧ (Examples.catchAllFirst Unit).operator_call [Val.int 10, Val.int 20] ()
        = (Outcome.ret (Val.int 30), ())
    ∧ (Examples.catchAllFirst Unit).Ts.map (fun l => l.toHandler.call [Val.int 10, Val.int 20] ())
        = [(Outcome.ret (Val.int (-1)), ()), (Outcome.ret (Val.int 30), ())] := by
  refine ⟨by decide, by decide, by decide, by decide⟩

/-- C11, amended: for every list of constituents, argument list and state, the declaration
order plays no part in a call of the `overloaded` object: with the constituents declared in
the opposite order the call has the same result and end state.  What decides between two
accepting constituents is the quality of the match: a constituent that is not generic and
names exactly the argument types is called rather than a generic one, a fully generic
catch-all included, whether it is declared after it or before it; and a constituent with
one `auto` parameter for each argument is called rather than the catch-all `[](auto...)`,
whether it is declared after it or before it. -/
theorem overloaded.selected_is_better_candidate_in_any_order {σ : Type} (o : overloaded σ)
    (args : List Val) (s : σ) :
    (overloaded.mk o.Ts.reverse).operator_call args s = o.operator_call args s
    ∧ (∀ (e g : Lambda σ), e.pack = false →
        e.params = (args.map Val.typeOf).map Param.typed → g.isTemplate = true →
        (overloaded.mk [g, e]).operator_call args s = e.toHandler.call args s
        ∧ (overloaded.mk [e, g]).operator_call args s = e.toHandler.call args s)
    ∧ (∀ (g c : Lambda σ), g.pack = false →
        g.params = List.replicate args.length Param.generic →
        c.pack = true → c.params = [] →
        (overloaded.mk [c, g]).operator_call args s = g.toHandler.call args s
        ∧ (overloaded.mk [g, c]).operator_call args s = g.toHandler.call args s) := by
  refine ⟨overloaded.reverse_call o args s, ?_, ?_⟩
  · intro e g hpack hparams hgen
    constructor
    · apply overloaded.exact_call (overloaded.mk [g, e]) args s 1 e rfl hpack hparams
      intro j m hj hm _
      have hlt : j < 2 := (List.get?_eq_some.mp hm).1
      have hj0 : j = 0 := by omega
      subst hj0
      cases hm
      exact Or.inl hgen
    · apply overloaded.exact_call (overloaded.mk [e, g]) args s 0 e rfl hpack hparams
      intro j m hj hm _
      have hlt : j < 2 := (List.get?_eq_some.mp hm).1
      have hj1 : j = 1 := by omega
      subst hj1
      cases hm
      exact Or.inl hgen
  · intro g c hgpack hgparams hcpack hcparams
    have hlen : args.length = (args.map Val.typeOf).length := by simp
    rw [hlen] at hgparams
    apply overloaded.pair_call g c args s
    · unfold Lambda.invocable
      rw [hgparams, hgpack, rankAll_generic]
      rfl
    · exact Lambda.fixed_generic_better_than_pack g c _ hgpack hgparams hcpack hcparams

/-- C11 amended, at the two constituents of the test `RecursiveVariants` and the arguments
`(10, 20)`: with the catch-all `[](auto, auto)` declared first or last, the call is the call
of `[](int val, int val2)` and returns `30`. -/
theorem overloaded.selected_is_better_candidate_in_any_order_witness :
    (Examples.catchAllFirst Unit).operator_call [Val.int 10, Val.int 20] ()
        = (Outcome.ret (Val.int 30), ())
    ∧ (Tests.RecursiveVariants.sum_visitor Unit).operator_call [Val.int 10, Val.int 20] ()
        = (Outcome.ret (Val.int 30), ()) := by
  have h := (overloaded.selected_is_better_candidate_in_any_order
    (Tests.RecursiveVariants.sum_visitor Unit) [Val.int 10, Val.int 20] ()).2.1
    ((Tests.RecursiveVariants.sum_visitor Unit).Ts.get ⟨0, by decide⟩)
    ((Tests.RecursiveVariants.sum_visitor Unit).Ts.get ⟨1, by decide⟩)
    (by rfl) (by rfl) (by decide)
  have hval : ((Tests.RecursiveVariants.sum_visitor Unit).Ts.get ⟨0, by decide⟩).toHandler.call
      [Val.int 10, Val.int 20] () = (Outcome.ret (Val.int 30), ()) := by decide
  exact ⟨h.1.trans hval, h.2.trans hval⟩

/-- C12: a dispatcher constructed with no handlers returns the absent value for every
argument list, of every length and with arguments of every type, and leaves the state as it
was: `std::nullopt` in main.cpp, an empty `std::optional<int>` in the copy of the test
file. -/
theorem MultiDispatcher.no_functors_absent {σ : Type} (args : List Val) (s : σ) :
    (MultiDispatcher.mk ([] : List (Handler σ))).operator_call args s
      = (Outcome.ret Val.nullopt, s)
    ∧ Tests.MultiDispatcher.operator_call (MultiDispatcher.mk ([] : List (Handler σ))) args s
      = (Outcome.ret (Val.optionalInt none), s) := by
  constructor
  · exact MultiDispatcher.try_dispatch_none
      (MultiDispatcher.mk ([] : List (Handler σ))) args s 0 0 rfl
      (fun j hj _ => absurd hj (Nat.not_lt_zero j))
  · unfold Tests.MultiDispatcher.operator_call
    rw [Tests.MultiDispatcher.try_dispatch_copy_none
      (MultiDispatcher.mk ([] : List (Handler σ))) args s 0 0 rfl
      (fun j hj _ => absurd hj (Nat.not_lt_zero j))]
    rfl

/-! ## Positional apply -/

theorem apply_with_index_eq {α β : Type} (f : List α → β) (t : List α) :
    apply_with_index f t = f t := by
  unfold apply_with_index apply_with_index_impl
  rw [List.finRange_map_get]

/-- C13: for every tuple `t` of length `k` and every callable, `apply_with_index(f, t)` is the
one call `f(t[0], ..., t[k-1])`: the argument list built from the index sequence has length
`k` and holds `t[i]` at position `i`, the result is what the call returns, a handler with
state ends in the state that one call leaves, and the logging handler logs the one argument
list `t`. -/
theorem apply_with_index_calls_once_in_order {α β σ : Type} (f : List α → β) (t : List α)
    (h : Handler σ) (args : List Val) (s : σ) (log : List (List Val)) :
    apply_with_index f t = f t
    ∧ ((List.finRange t.length).map (fun i => t.get i)).length = t.length
    ∧ (∀ (i : Fin t.length),
        ((List.finRange t.length).map (fun j => t.get j)).get? i.val = some (t.get i))
    ∧ apply_with_index (fun xs => h.call xs s) args = h.call args s
    ∧ apply_with_index (fun xs => Examples.recorder.call xs log) args
        = (Outcome.ret Val.void, log ++ [args]) := by
  refine ⟨apply_with_index_eq f t, by simp, ?_, apply_with_index_eq _ args, ?_⟩
  · intro i
    rw [List.finRange_map_get]
    simp [List.getElem?_eq_getElem i.isLt]
  · rw [apply_with_index_eq]
    rfl

/-- Scenario of the test `ApplyWithIndexBasic`: `(1, 2.5, 'c')` gives `1 + 2 + 99`. -/
theorem apply_with_index_basic :
    apply_with_index (fun xs => (Tests.ApplyWithIndexBasic.handler Unit).call xs ())
      Tests.ApplyWithIndexBasic.tuple = (Outcome.ret (Val.int 102), ()) := by
  rw [apply_with_index_eq]
  simp [Tests.ApplyWithIndexBasic.handler, Tests.ApplyWithIndexBasic.tuple,
    Lambda.toHandler, Lambda.invocable, Lambda.bindArgs, rankAll, bindParams, Param.rank,
    Param.bind, conversionRank, convert, Val.typeOf, truncToInt_two_and_a_half]

/-! ## Build-time acceptance of a visitation -/

/-- The visit of one variant has the type `r` exactly when the variant has an alternative
and the call on every alternative has the type `r`. -/
theorem sameType_eq_some (rs : List (Option Ty)) (r : Ty) :
    sameType rs = some r ↔ rs ≠ [] ∧ ∀ x ∈ rs, x = some r := by
  cases rs with
  | nil => simp [sameType]
  | cons x xs =>
    simp only [sameType, ne_eq, reduceCtorEq, not_false_eq_true, true_and, List.mem_cons,
      forall_eq_or_imp, List.all_eq_true, decide_eq_true_eq]
    constructor
    · intro h
      by_cases hall : ∀ y ∈ xs, y = x
      · rw [if_pos hall] at h
        exact ⟨h, fun y hy => (hall y hy).trans h⟩
      · rw [if_neg hall] at h
        cases h
    · rintro ⟨hx, hxs⟩
      rw [if_pos (fun y hy => (hxs y hy).trans hx.symm)]
      exact hx

/-- No combination exists exactly when some variant has no alternative; with the first
variant having one, the combinations of the rest decide. -/
theorem combinations_cons_ne_nil (alts : List Ty) (rest : List (List Ty)) :
    combinations (alts :: rest) ≠ [] ↔ alts ≠ [] ∧ combinations rest ≠ [] := by
  cases alts with
  | nil => simp [combinations]
  | cons t ts =>
    cases hr : combinations rest with
    | nil => simp [combinations, hr]
    | cons c cs => simp [combinations, hr]

/-- From index `I` with bound argument types `pre`, `visit` has the return type `r` exactly
when the visitor is invocable with `pre` followed by every combination of the remaining
alternatives and returns `r` for each of them. -/
theorem VariantTupleVisitor.visit_type_eq {σ : Type} (visitor : Handler σ)
    (tuple : List (List Ty)) (r : Ty) :
    ∀ (k I : Nat) (pre : List Ty), I + k = tuple.length →
      (VariantTupleVisitor.visit_type visitor tuple I pre = some r
        ↔ combinations (tuple.drop I) ≠ []
          ∧ ∀ c ∈ combinations (tuple.drop I),
              visitor.invocable (pre ++ c) = true ∧ visitor.returns (pre ++ c) = r) := by
  intro k
  induction k with
  | zero =>
    intro I pre hI
    have hIl : I = tuple.length := by omega
    rw [VariantTupleVisitor.visit_type, if_pos hIl, hIl, List.drop_length]
    cases hinv : visitor.invocable pre <;> simp [combinations, hinv]
  | succ k ih =>
    intro I pre hI
    have hne : ¬ I = tuple.length := by omega
    have hlt : I < tuple.length := by omega
    have hdrop : tuple.drop I = tuple.get ⟨I, hlt⟩ :: tuple.drop (I + 1) :=
      List.drop_eq_getElem_cons hlt
    rw [VariantTupleVisitor.visit_type, if_neg hne, dif_pos hlt, hdrop, sameType_eq_some,
      combinations_cons_ne_nil]
    have hstep : ∀ t, VariantTupleVisitor.visit_type visitor tuple (I + 1) (pre ++ [t])
        = some r ↔ combinations (tuple.drop (I + 1)) ≠ []
          ∧ ∀ c ∈ combinations (tuple.drop (I + 1)),
              visitor.invocable (pre ++ t :: c) = true
              ∧ visitor.returns (pre ++ t :: c) = r := by
      intro t
      have := ih (I + 1) (pre ++ [t]) (by omega)
      simpa [List.append_assoc] using this
    constructor
    · rintro ⟨hnil, hall⟩
      have halts : tuple.get ⟨I, hlt⟩ ≠ [] := by
        intro h0
        rw [h0] at hnil
        exact hnil rfl
      obtain ⟨t, ht⟩ := List.exists_mem_of_ne_nil _ halts
      have hrest := ((hstep t).mp
        (hall _ (List.mem_map_of_mem _ ht))).1
      refine ⟨⟨halts, hrest⟩, ?_⟩
      intro c hc
      simp only [combinations, List.mem_flatMap, List.mem_map] at hc
      rcases hc with ⟨u, hu, c', hc', rfl⟩
      exact ((hstep u).mp (hall _ (List.mem_map_of_mem _ hu))).2 c' hc'
    · rintro ⟨⟨halts, hrest⟩, hall⟩
      refine ⟨by simpa using halts, ?_⟩
      intro x hx
      rcases List.mem_map.mp hx with ⟨u, hu, rfl⟩
      refine (hstep u).mpr ⟨hrest, ?_⟩
      intro c' hc'
      apply hall
      simp only [combinations, List.mem_flatMap, List.mem_map]
      exact ⟨u, hu, c', hc', rfl⟩

/-- The call `multi_visit(f, variants...)` has the return type `r` exactly when there is a
combination of alternatives and `f` is invocable with every combination and returns `r` for
each. -/
theorem multi_visit_type_eq_some {σ : Type} (f : Handler σ) (variants : List Variant)
    (r : Ty) :
    multi_visit_type f variants = some r
      ↔ combinations (variants.map Variant.alternatives) ≠ []
        ∧ ∀ c ∈ combinations (variants.map Variant.alternatives),
            f.invocable c = true ∧ f.returns c = r := by
  unfold multi_visit_type
  rw [VariantTupleVisitor.visit_type_eq f _ r (variants.map Variant.alternatives).length 0 []
    (by omega)]
  simp

theorem multi_visit_compiles_iff {σ : Type} (f : Handler σ) (variants : List Variant) :
    multi_visit_compiles f variants = true
      ↔ ∃ r, combinations (variants.map Variant.alternatives) ≠ []
        ∧ ∀ c ∈ combinations (variants.map Variant.alternatives),
            f.invocable c = true ∧ f.returns c = r := by
  unfold multi_visit_compiles
  rw [Option.isSome_iff_exists]
  exact exists_congr (fun r => multi_visit_type_eq_some f variants r)

/-- Among the functors that accept the arguments there is a first one. -/
theorem MultiDispatcher.exists_first_accepting {σ : Type} (d : MultiDispatcher σ)
    (tys : List Ty) :
    ∀ (j : Nat) (hj : j < d.functors.length),
      (d.functors.get ⟨j, hj⟩).invocable tys = true →
      ∃ (i : Nat) (hi : i < d.functors.length),
        (d.functors.get ⟨i, hi⟩).invocable tys = true
        ∧ ∀ (k : Nat) (hk : k < d.functors.length), k < i →
            (d.functors.get ⟨k, hk⟩).invocable tys = false := by
  intro j
  induction j using Nat.strong_induction_on with
  | _ j ih =>
    intro hj hacc
    by_cases hex : ∃ (k : Nat) (hk : k < d.functors.length), k < j ∧
        (d.functors.get ⟨k, hk⟩).invocable tys = true
    · rcases hex with ⟨k, hk, hkj, hkacc⟩
      exact ih k hkj hk hkacc
    · refine ⟨j, hj, hacc, ?_⟩
      intro k hk hkj
      cases hv : (d.functors.get ⟨k, hk⟩).invocable tys with
      | false => rfl
      | true => exact absurd ⟨k, hk, hkj, hv⟩ hex

/-- Scenario of the test `MultiDispatcherWithVariants`, with the visitor of the test itself:
from `call_count = 0` the result is the present optional `1`, `call_count` ends at `1` and
`last_result` is `"A-C"`. -/
theorem multi_visit_dispatcher_with_variants :
    multi_visit Tests.MultiDispatcherWithVariants.visitor
      [Tests.MultiDispatcherWithVariants.v1, Tests.MultiDispatcherWithVariants.v2] (0, "")
      = (Outcome.ret (Val.optionalInt (some 1)), (1, "A-C")) := by
  rw [multi_visit_eq]
  simp [Tests.MultiDispatcherWithVariants.visitor, Tests.MultiDispatcherWithVariants.v1,
    Tests.MultiDispatcherWithVariants.v2, Tests.MultiDispatcherWithVariants.dispatcher,
    Tests.MultiDispatcher.operator_call, Tests.MultiDispatcher.try_dispatch,
    Lambda.toHandler, Lambda.invocable, Lambda.bindArgs, rankAll, bindParams, Param.rank,
    Param.bind, conversionRank, convert, Val.typeOf, returnAsOptionalInt, Val.toNum,
    truncToInt_intCast, truncToInt_one]

/-- C15: for every dispatcher, every `overloaded` object and any two argument lists with the
same types position by position (the values and the states may differ), both calls of the
dispatcher run the same functor, the first that accepts these types, or both return the
absent value; and both calls of the `overloaded` object are resolved to the same base, or
both are rejected. -/
theorem selection_depends_on_argument_types_only {σ : Type} (d : MultiDispatcher σ)
    (o : overloaded σ) (args args' : List Val) (s s' : σ)
    (hshape : args.map Val.typeOf = args'.map Val.typeOf) :
    ((∃ (i : Nat) (hi : i < d.functors.length),
        (d.functors.get ⟨i, hi⟩).invocable (args.map Val.typeOf) = true
        ∧ (∀ (k : Nat) (hk : k < d.functors.length), k < i →
            (d.functors.get ⟨k, hk⟩).invocable (args.map Val.typeOf) = false)
        ∧ d.operator_call args s = (d.functors.get ⟨i, hi⟩).call args s
        ∧ d.operator_call args' s' = (d.functors.get ⟨i, hi⟩).call args' s')
      ∨ (d.operator_call args s = (Outcome.ret Val.nullopt, s)
        ∧ d.operator_call args' s' = (Outcome.ret Val.nullopt, s')))
    ∧ ((∃ (i : Nat) (l : Lambda σ), o.Ts.get? i = some l
        ∧ o.resolve (args.map Val.typeOf) = some i
        ∧ o.resolve (args'.map Val.typeOf) = some i
        ∧ o.operator_call args s = l.toHandler.call args s
        ∧ o.operator_call args' s' = l.toHandler.call args' s')
      ∨ (o.resolve (args.map Val.typeOf) = none
        ∧ o.resolve (args'.map Val.typeOf) = none
        ∧ o.operator_call args s = (Outcome.illFormed, s)
        ∧ o.operator_call args' s' = (Outcome.illFormed, s'))) := by
  constructor
  · by_cases hex : ∃ (j : Nat) (hj : j < d.functors.length),
        (d.functors.get ⟨j, hj⟩).invocable (args.map Val.typeOf) = true
    · rcases hex with ⟨j, hj, hacc⟩
      rcases MultiDispatcher.exists_first_accepting d _ j hj hacc with ⟨i, hi, hiacc, hfirst⟩
      refine Or.inl ⟨i, hi, hiacc, hfirst, ?_, ?_⟩
      · exact MultiDispatcher.try_dispatch_first d args s i hi hiacc i 0 (by omega)
          (fun k hk _ hlt => hfirst k hk hlt)
      · rw [hshape] at hiacc hfirst
        exact MultiDispatcher.try_dispatch_first d args' s' i hi hiacc i 0 (by omega)
          (fun k hk _ hlt => hfirst k hk hlt)
    · have hnone : ∀ (j : Nat) (hj : j < d.functors.length),
          (d.functors.get ⟨j, hj⟩).invocable (args.map Val.typeOf) = false := by
        intro j hj
        cases hv : (d.functors.get ⟨j, hj⟩).invocable (args.map Val.typeOf) with
        | false => rfl
        | true => exact absurd ⟨j, hj, hv⟩ hex
      refine Or.inr ⟨?_, ?_⟩
      · exact MultiDispatcher.try_dispatch_none d args s d.functors.length 0 (by omega)
          (fun j hj _ => hnone j hj)
      · rw [hshape] at hnone
        exact MultiDispatcher.try_dispatch_none d args' s' d.functors.length 0 (by omega)
          (fun j hj _ => hnone j hj)
  · cases hres : o.resolve (args.map Val.typeOf) with
    | none =>
      have hres' : o.resolve (args'.map Val.typeOf) = none := by rw [← hshape]; exact hres
      refine Or.inr ⟨rfl, hres', ?_, ?_⟩
      · unfold overloaded.operator_call; rw [hres]
      · unfold overloaded.operator_call; rw [hres']
    | some i =>
      have hres' : o.resolve (args'.map Val.typeOf) = some i := by rw [← hshape]; exact hres
      rcases overloaded.resolve_some o _ i hres with ⟨l, hget, _⟩
      refine Or.inl ⟨i, l, hget, rfl, hres', ?_, ?_⟩
      · unfold overloaded.operator_call; rw [hres]; simp only [hget]
      · unfold overloaded.operator_call; rw [hres']; simp only [hget]

/-- C15, at the dispatcher of the test `MultiDispatcherBasic` and the visitor of the test
`RecursiveVariants`, for the argument lists `(5, 3)` and `(-7, 100)`, both of types
`(int, int)`. -/
theorem selection_depends_on_argument_types_only_witness :
    [Val.int 5, Val.int 3].map Val.typeOf = [Val.int (-7), Val.int 100].map Val.typeOf
    ∧ (Tests.RecursiveVariants.sum_visitor Unit).resolve
        ([Val.int 5, Val.int 3].map Val.typeOf) = some 0
    ∧ (Tests.RecursiveVariants.sum_visitor Unit).resolve
        ([Val.int (-7), Val.int 100].map Val.typeOf) = some 0
    ∧ ((∃ (i : Nat) (hi : i < (Tests.MultiDispatcherBasic.dispatcher Unit).functors.length),
        ((Tests.MultiDispatcherBasic.dispatcher Unit).functors.get ⟨i, hi⟩).invocable
          ([Val.int 5, Val.int 3].map Val.typeOf) = true
        ∧ (∀ (k : Nat) (hk : k < (Tests.MultiDispatcherBasic.dispatcher Unit).functors.length),
            k < i →
            ((Tests.MultiDispatcherBasic.dispatcher Unit).functors.get ⟨k, hk⟩).invocable
              ([Val.int 5, Val.int 3].map Val.typeOf) = false)
        ∧ (Tests.MultiDispatcherBasic.dispatcher Unit).operator_call [Val.int 5, Val.int 3] ()
          = ((Tests.MultiDispatcherBasic.dispatcher Unit).functors.get ⟨i, hi⟩).call
              [Val.int 5, Val.int 3] ()
        ∧ (Tests.MultiDispatcherBasic.dispatcher Unit).operator_call
            [Val.int (-7), Val.int 100] ()
          = ((Tests.MultiDispatcherBasic.dispatcher Unit).functors.get ⟨i, hi⟩).call
              [Val.int (-7), Val.int 100] ())
      ∨ ((Tests.MultiDispatcherBasic.dispatcher Unit).operator_call [Val.int 5, Val.int 3] ()
          = (Outcome.ret Val.nullopt, ())
        ∧ (Tests.MultiDispatcherBasic.dispatcher Unit).operator_call
            [Val.int (-7), Val.int 100] () = (Outcome.ret Val.nullopt, ()))) := by
  have h := selection_depends_on_argument_types_only
    (Tests.MultiDispatcherBasic.dispatcher Unit) (Tests.RecursiveVariants.sum_visitor Unit)
    [Val.int 5, Val.int 3] [Val.int (-7), Val.int 100] () () (by rfl)
  exact ⟨by rfl, by decide, by decide, h.1⟩

/-! ## Coverage -/

/-- Scenario of the test `TwoVariantsDispatch`, build-time check included: the generic handler
covers the four combinations, returning a `std::string` for each, and the call returns
`"A=10,C=X"`. -/
theorem multi_visit_checked_two_variants :
    multi_visit_compiles (Tests.TwoVariantsDispatch.handler Unit)
      [Tests.TwoVariantsDispatch.v1, Tests.TwoVariantsDispatch.v2] = true
    ∧ multi_visit_type (Tests.TwoVariantsDispatch.handler Unit)
      [Tests.TwoVariantsDispatch.v1, Tests.TwoVariantsDispatch.v2] = some Ty.string
    ∧ multi_visit_checked (Tests.TwoVariantsDispatch.handler Unit)
        [Tests.TwoVariantsDispatch.v1, Tests.TwoVariantsDispatch.v2] ()
        = (Outcome.ret (Val.string "A=10,C=X"), ()) := by
  have hty : multi_visit_type (Tests.TwoVariantsDispatch.handler Unit)
      [Tests.TwoVariantsDispatch.v1, Tests.TwoVariantsDispatch.v2] = some Ty.string :=
    (multi_visit_type_eq_some _ _ _).mpr (by decide)
  have hc : multi_visit_compiles (Tests.TwoVariantsDispatch.handler Unit)
      [Tests.TwoVariantsDispatch.v1, Tests.TwoVariantsDispatch.v2] = true := by
    unfold multi_visit_compiles
    rw [hty]
    rfl
  refine ⟨hc, hty, ?_⟩
  unfold multi_visit_checked
  rw [if_pos hc]
  exact multi_visit_two_variants

/-- A dispatcher of main.cpp as the handler of `multi_visit`: the return type of its call
operator is that of the first accepting functor, `std::nullopt_t` when there is none.  With
the catch-all of the test `MultiDispatcherWithVariants` every combination returns `int` and
the call compiles; without it the combination `(A, C)` returns `int` and `(B, C)` returns
`std::nullopt_t`, and the call is rejected. -/
theorem multi_visit_dispatcher_return_types :
    multi_visit_type Tests.MultiDispatcherWithVariants.dispatcher.toHandler
        [Tests.MultiDispatcherWithVariants.v1, Tests.MultiDispatcherWithVariants.v2]
      = some Ty.int
    ∧ multi_visit_type (Examples.forwarder Tests.MultiDispatcherWithVariants.dispatcher)
        [Tests.MultiDispatcherWithVariants.v1, Tests.MultiDispatcherWithVariants.v2]
      = some Ty.int
    ∧ Examples.withoutCatchAll.returns [Ty.A, Ty.C] = Ty.int
    ∧ Examples.withoutCatchAll.returns [Ty.B, Ty.C] = Ty.nullopt_t
    ∧ multi_visit_compiles Examples.withoutCatchAll.toHandler
        [Examples.holdingB, Tests.MultiDispatcherWithVariants.v2] = false := by
  refine ⟨(multi_visit_type_eq_some _ _ _).mpr (by decide),
    (multi_visit_type_eq_some _ _ _).mpr (by decide), by decide, by decide, ?_⟩
  cases hv : multi_visit_compiles Examples.withoutCatchAll.toHandler
      [Examples.holdingB, Tests.MultiDispatcherWithVariants.v2] with
  | false => rfl
  | true =>
    rcases (multi_visit_compiles_iff _ _).mp hv with ⟨r, _, hall⟩
    have h1 := (hall [Ty.A, Ty.C] (by decide)).2
    have h2 := (hall [Ty.B, Ty.C] (by decide)).2
    rw [← h1] at h2
    exact absurd h2 (by decide)

/-! ## `tuple_transform` -/

/-- C19: for every tuple `t` of length `k` and every function `f`, `tuple_transform(t, f)` has
length `k` and holds `f(t[i])` at every position `i < k`; `(1, 2, 3)` with `x -> x * 2` gives
`(2, 4, 6)`. -/
theorem tuple_transform_applies_pointwise {α β : Type} (t : List α) (f : α → β) :
    (tuple_transform t f).length = t.length
    ∧ (∀ (i : Fin t.length), (tuple_transform t f).get? i.val = some (f (t.get i)))
    ∧ tuple_transform t f = t.map f
    ∧ tuple_transform [(1 : Int), 2, 3] (fun x => x * 2) = [2, 4, 6] := by
  have hmap : tuple_transform t f = t.map f := by
    unfold tuple_transform tuple_transform_impl
    conv_rhs => rw [← List.finRange_map_get t]
    rw [List.map_map]
    rfl
  refine ⟨by rw [hmap, List.length_map], ?_, hmap, by decide⟩
  intro i
  rw [hmap]
  simp [List.getElem?_map, List.getElem?_eq_getElem i.isLt]

/-! ## The recursion of `visit` -/

theorem VariantTupleVisitor.visit_traced_eq {σ : Type} (visitor : Handler σ)
    (tuple : List Variant) (s : σ) :
    ∀ (k I : Nat) (args : List Val), I + k = tuple.length →
      VariantTupleVisitor.visit_traced visitor tuple I args s
        = (VariantTupleVisitor.visit visitor tuple I args s, List.range' I k) := by
  intro k
  induction k with
  | zero =>
    intro I args hI
    have hIl : I = tuple.length := by omega
    rw [VariantTupleVisitor.visit_traced, if_pos hIl, VariantTupleVisitor.visit, if_pos hIl]
    rfl
  | succ k ih =>
    intro I args hI
    have hne : ¬ I = tuple.length := by omega
    have hlt : I < tuple.length := by omega
    rw [VariantTupleVisitor.visit_traced, if_neg hne, dif_pos hlt,
      VariantTupleVisitor.visit, if_neg hne, dif_pos hlt]
    unfold std_visit
    simp only
    rw [ih (I + 1) (args ++ [(tuple.get ⟨I, hlt⟩).active]) (by omega)]
    rfl

/-- C20: for every handler and every tuple of `N` variants the recursion of `visit`, a total
function decreasing `N - I`, goes as follows.  At every index `I < N` it resolves the one
variant `tuple[I]` and continues at `I + 1` with that alternative appended at the end of the
bound arguments; at `I = N` it calls the handler on the bound arguments.  So after `k ≤ N`
levels exactly the first `k` active alternatives are bound, nothing else, and the handler
call is reached after the `N` levels `0, 1, ..., N-1`, in this order. -/
theorem VariantTupleVisitor.visit_resolves_one_variant_per_level {σ : Type}
    (visitor : Handler σ) (tuple : List Variant) (s : σ) :
    (∀ (I : Nat) (h : I < tuple.length) (args : List Val),
      VariantTupleVisitor.visit visitor tuple I args s
        = VariantTupleVisitor.visit visitor tuple (I + 1)
            (args ++ [(tuple.get ⟨I, h⟩).active]) s)
    ∧ (∀ (args : List Val),
        VariantTupleVisitor.visit visitor tuple tuple.length args s = visitor.call args s)
    ∧ (∀ (k : Nat), k ≤ tuple.length →
        multi_visit visitor tuple s
          = VariantTupleVisitor.visit visitor tuple k ((tuple.take k).map Variant.active) s
        ∧ ((tuple.take k).map Variant.active).length = k)
    ∧ VariantTupleVisitor.visit_traced visitor tuple 0 [] s
        = (visitor.call (tuple.map Variant.active) s, List.range tuple.length)
    ∧ (List.range tuple.length).length = tuple.length := by
  refine ⟨?_, ?_, ?_, ?_, List.length_range _⟩
  · intro I h args
    have hne : ¬ I = tuple.length := by omega
    rw [VariantTupleVisitor.visit, if_neg hne, dif_pos h]
    rfl
  · intro args
    rw [VariantTupleVisitor.visit, if_pos rfl]
  · intro k hk
    constructor
    · rw [multi_visit_eq,
        VariantTupleVisitor.visit_eq visitor tuple s (tuple.length - k) k _ (by omega),
        ← List.map_append, List.take_append_drop]
    · simp [hk]
  · rw [VariantTupleVisitor.visit_traced_eq visitor tuple s tuple.length 0 [] (by omega),
      VariantTupleVisitor.visit_eq visitor tuple s tuple.length 0 [] (by omega),
      List.range_eq_range']
    simp

/-- C20, at the two variants of the test `TwoVariantsDispatch`: after one level the bound
arguments are `A{10}`, and the handler is reached through the levels `0, 1`. -/
theorem VariantTupleVisitor.visit_resolves_one_variant_per_level_witness :
    multi_visit (Tests.TwoVariantsDispatch.handler Unit)
        [Tests.TwoVariantsDispatch.v1, Tests.TwoVariantsDispatch.v2] ()
      = VariantTupleVisitor.visit (Tests.TwoVariantsDispatch.handler Unit)
          [Tests.TwoVariantsDispatch.v1, Tests.TwoVariantsDispatch.v2] 1 [Val.A 10] ()
    ∧ (VariantTupleVisitor.visit_traced (Tests.TwoVariantsDispatch.handler Unit)
        [Tests.TwoVariantsDispatch.v1, Tests.TwoVariantsDispatch.v2] 0 [] ()).2 = [0, 1] := by
  have h := VariantTupleVisitor.visit_resolves_one_variant_per_level
    (Tests.TwoVariantsDispatch.handler Unit)
    [Tests.TwoVariantsDispatch.v1, Tests.TwoVariantsDispatch.v2] ()
  refine ⟨(h.2.2.1 1 (by decide)).1, ?_⟩
  rw [h.2.2.2.1]
  rfl

/-! ## Concatenation of handler lists -/

theorem get_append_left_handler {α : Type} (hs hs' : List α) (i : Nat) (hi : i < hs.length)
    (h : i < (hs ++ hs').length) : (hs ++ hs').get ⟨i, h⟩ = hs.get ⟨i, hi⟩ := by
  simp [List.getElem_append_left, hi]

theorem get_append_right_handler {α : Type} (hs hs' : List α) (j : Nat) (hj : j < hs'.length)
    (h : hs.length + j < (hs ++ hs').length) :
    (hs ++ hs').get ⟨hs.length + j, h⟩ = hs'.get ⟨j, hj⟩ := by
  simp [List.getElem_append_right]

/-- When functor `i` of `hs` is the first of `hs` to accept, the dispatchers over `hs` and
over `hs ++ hs'` both run it. -/
theorem MultiDispatcher.append_left {σ : Type} (hs hs' : List (Handler σ))
    (args : List Val) (s : σ) (i : Nat) (hi : i < hs.length)
    (hacc : (hs.get ⟨i, hi⟩).invocable (args.map Val.typeOf) = true)
    (hfirst : ∀ (k : Nat) (hk : k < hs.length), k < i →
      (hs.get ⟨k, hk⟩).invocable (args.map Val.typeOf) = false) :
    (MultiDispatcher.mk (hs ++ hs')).operator_call args s = (hs.get ⟨i, hi⟩).call args s
    ∧ (MultiDispatcher.mk hs).operator_call args s = (hs.get ⟨i, hi⟩).call args s
    ∧ Tests.MultiDispatcher.operator_call (MultiDispatcher.mk (hs ++ hs')) args s
        = returnAsOptionalInt ((hs.get ⟨i, hi⟩).call args s)
    ∧ Tests.MultiDispatcher.operator_call (MultiDispatcher.mk hs) args s
        = returnAsOptionalInt ((hs.get ⟨i, hi⟩).call args s) := by
  have hi2 : i < (MultiDispatcher.mk (hs ++ hs')).functors.length := by
    show i < (hs ++ hs').length
    rw [List.length_append]; omega
  have hget : (MultiDispatcher.mk (hs ++ hs')).functors.get ⟨i, hi2⟩ = hs.get ⟨i, hi⟩ :=
    get_append_left_handler hs hs' i hi hi2
  have hacc2 : ((MultiDispatcher.mk (hs ++ hs')).functors.get ⟨i, hi2⟩).invocable
      (args.map Val.typeOf) = true := by rw [hget]; exact hacc
  have hfirst2 : ∀ (k : Nat) (hk : k < (MultiDispatcher.mk (hs ++ hs')).functors.length),
      0 ≤ k → k < i →
      ((MultiDispatcher.mk (hs ++ hs')).functors.get ⟨k, hk⟩).invocable
        (args.map Val.typeOf) = false := by
    intro k hk _ hki
    have hk1 : k < hs.length := by omega
    have : (MultiDispatcher.mk (hs ++ hs')).functors.get ⟨k, hk⟩ = hs.get ⟨k, hk1⟩ :=
      get_append_left_handler hs hs' k hk1 hk
    rw [this]
    exact hfirst k hk1 hki
  have hfirst1 : ∀ (k : Nat) (hk : k < (MultiDispatcher.mk hs).functors.length),
      0 ≤ k → k < i →
      ((MultiDispatcher.mk hs).functors.get ⟨k, hk⟩).invocable (args.map Val.typeOf) = false :=
    fun k hk _ hki => hfirst k hk hki
  refine ⟨?_, ?_, ?_, ?_⟩
  · rw [← hget]
    exact MultiDispatcher.try_dispatch_first _ args s i hi2 hacc2 i 0 (by omega) hfirst2
  · exact MultiDispatcher.try_dispatch_first (MultiDispatcher.mk hs) args s i hi hacc i 0
      (by omega) hfirst1
  · unfold Tests.MultiDispatcher.operator_call
    rw [Tests.MultiDispatcher.try_dispatch_copy_first _ args s i hi2 hacc2 i 0 (by omega)
      hfirst2, returnAsOptionalInt_idem, hget]
  · unfold Tests.MultiDispatcher.operator_call
    rw [Tests.MultiDispatcher.try_dispatch_copy_first (MultiDispatcher.mk hs) args s i hi hacc
      i 0 (by omega) hfirst1, returnAsOptionalInt_idem]

/-- When no functor of `hs` accepts, the dispatcher over `hs ++ hs'` does what the dispatcher
over `hs'` does. -/
theorem MultiDispatcher.append_right {σ : Type} (hs hs' : List (Handler σ))
    (args : List Val) (s : σ)
    (hnone : ∀ (k : Nat) (hk : k < hs.length),
      (hs.get ⟨k, hk⟩).invocable (args.map Val.typeOf) = false) :
    (MultiDispatcher.mk (hs ++ hs')).operator_call args s
      = (MultiDispatcher.mk hs').operator_call args s
    ∧ Tests.MultiDispatcher.operator_call (MultiDispatcher.mk (hs ++ hs')) args s
      = Tests.MultiDispatcher.operator_call (MultiDispatcher.mk hs') args s := by
  have hlen : (MultiDispatcher.mk (hs ++ hs')).functors.length = hs.length + hs'.length :=
    List.length_append hs hs'
  have hleft : ∀ (k : Nat) (hk : k < (MultiDispatcher.mk (hs ++ hs')).functors.length),
      k < hs.length →
      ((MultiDispatcher.mk (hs ++ hs')).functors.get ⟨k, hk⟩).invocable
        (args.map Val.typeOf) = false := by
    intro k hk hk1
    have : (MultiDispatcher.mk (hs ++ hs')).functors.get ⟨k, hk⟩ = hs.get ⟨k, hk1⟩ :=
      get_append_left_handler hs hs' k hk1 hk
    rw [this]
    exact hnone k hk1
  have hright : ∀ (k : Nat) (hk : k < (MultiDispatcher.mk (hs ++ hs')).functors.length)
      (hk1 : hs.length ≤ k) (hk2 : k - hs.length < hs'.length),
      (MultiDispatcher.mk (hs ++ hs')).functors.get ⟨k, hk⟩
        = hs'.get ⟨k - hs.length, hk2⟩ := by
    intro k hk hk1 hk2
    obtain ⟨m, rfl⟩ : ∃ m, k = hs.length + m := ⟨k - hs.length, by omega⟩
    have hm : m < hs'.length := by omega
    rw [get_append_right_handler hs hs' m hm hk]
    congr 2
    omega
  by_cases hex : ∃ (j : Nat) (hj : j < hs'.length),
      (hs'.get ⟨j, hj⟩).invocable (args.map Val.typeOf) = true
  · rcases hex with ⟨j0, hj0, hacc0⟩
    rcases MultiDispatcher.exists_first_accepting (MultiDispatcher.mk hs') _ j0 hj0 hacc0
      with ⟨j, hj, hacc, hfirst⟩
    have hj' : j < hs'.length := hj
    have hi2 : hs.length + j < (MultiDispatcher.mk (hs ++ hs')).functors.length := by
      rw [hlen]; omega
    have hget : (MultiDispatcher.mk (hs ++ hs')).functors.get ⟨hs.length + j, hi2⟩
        = hs'.get ⟨j, hj'⟩ := get_append_right_handler hs hs' j hj' hi2
    have hacc2 : ((MultiDispatcher.mk (hs ++ hs')).functors.get ⟨hs.length + j, hi2⟩).invocable
        (args.map Val.typeOf) = true := by rw [hget]; exact hacc
    have hfirst2 : ∀ (k : Nat) (hk : k < (MultiDispatcher.mk (hs ++ hs')).functors.length),
        0 ≤ k → k < hs.length + j →
        ((MultiDispatcher.mk (hs ++ hs')).functors.get ⟨k, hk⟩).invocable
          (args.map Val.typeOf) = false := by
      intro k hk _ hkj
      by_cases hk1 : k < hs.length
      · exact hleft k hk hk1
      · have hk2 : k - hs.length < hs'.length := by omega
        rw [hright k hk (by omega) hk2]
        exact hfirst (k - hs.length) hk2 (by omega)
    have hfirst1 : ∀ (k : Nat) (hk : k < (MultiDispatcher.mk hs').functors.length),
        0 ≤ k → k < j →
        ((MultiDispatcher.mk hs').functors.get ⟨k, hk⟩).invocable
          (args.map Val.typeOf) = false :=
      fun k hk _ hkj => hfirst k hk hkj
    constructor
    · rw [show (MultiDispatcher.mk (hs ++ hs')).operator_call args s
          = ((MultiDispatcher.mk (hs ++ hs')).functors.get ⟨hs.length + j, hi2⟩).call args s
          from MultiDispatcher.try_dispatch_first _ args s (hs.length + j) hi2 hacc2
            (hs.length + j) 0 (by omega) hfirst2, hget]
      exact (MultiDispatcher.try_dispatch_first (MultiDispatcher.mk hs') args s j hj hacc j 0
        (by omega) hfirst1).symm
    · unfold Tests.MultiDispatcher.operator_call
      rw [Tests.MultiDispatcher.try_dispatch_copy_first _ args s (hs.length + j) hi2 hacc2
          (hs.length + j) 0 (by omega) hfirst2, hget,
        Tests.MultiDispatcher.try_dispatch_copy_first (MultiDispatcher.mk hs') args s j hj hacc
          j 0 (by omega) hfirst1]
  · have hnone' : ∀ (k : Nat) (hk : k < hs'.length),
        (hs'.get ⟨k, hk⟩).invocable (args.map Val.typeOf) = false := by
      intro k hk
      cases hv : (hs'.get ⟨k, hk⟩).invocable (args.map Val.typeOf) with
      | false => rfl
      | true => exact absurd ⟨k, hk, hv⟩ hex
    have hnone2 : ∀ (k : Nat) (hk : k < (MultiDispatcher.mk (hs ++ hs')).functors.length),
        0 ≤ k →
        ((MultiDispatcher.mk (hs ++ hs')).functors.get ⟨k, hk⟩).invocable
          (args.map Val.typeOf) = false := by
      intro k hk _
      by_cases hk1 : k < hs.length
      · exact hleft k hk hk1
      · have hk2 : k - hs.length < hs'.length := by omega
        rw [hright k hk (by omega) hk2]
        exact hnone' (k - hs.length) hk2
    have hnone1 : ∀ (k : Nat) (hk : k < (MultiDispatcher.mk hs').functors.length),
        0 ≤ k →
        ((MultiDispatcher.mk hs').functors.get ⟨k, hk⟩).invocable
          (args.map Val.typeOf) = false :=
      fun k hk _ => hnone' k hk
    constructor
    · rw [show (MultiDispatcher.mk (hs ++ hs')).operator_call args s
          = (Outcome.ret Val.nullopt, s)
          from MultiDispatcher.try_dispatch_none _ args s (hs.length + hs'.length) 0
            (by rw [hlen]; omega) hnone2]
      exact (MultiDispatcher.try_dispatch_none (MultiDispatcher.mk hs') args s hs'.length 0
        (Nat.zero_add _) hnone1).symm
    · unfold Tests.MultiDispatcher.operator_call
      rw [Tests.MultiDispatcher.try_dispatch_copy_none _ args s (hs.length + hs'.length) 0
          (by rw [hlen]; omega) hnone2,
        Tests.MultiDispatcher.try_dispatch_copy_none (MultiDispatcher.mk hs') args s hs'.length 0
          (Nat.zero_add _) hnone1]

/-- C21: for every two handler lists `hs`, `hs'`, every argument list and every state, if
some handler of `hs` accepts the arguments, the dispatcher over `hs ++ hs'` has the same
result and end state as the dispatcher over `hs`; if no handler of `hs` accepts them, it has
the same result and end state as the dispatcher over `hs'`.  The same holds of the copy in
the test file. -/
theorem MultiDispatcher.append_acts_as_or_else {σ : Type} (hs hs' : List (Handler σ))
    (args : List Val) (s : σ) :
    ((∃ (j : Nat) (hj : j < hs.length),
        (hs.get ⟨j, hj⟩).invocable (args.map Val.typeOf) = true) →
      (MultiDispatcher.mk (hs ++ hs')).operator_call args s
        = (MultiDispatcher.mk hs).operator_call args s
      ∧ Tests.MultiDispatcher.operator_call (MultiDispatcher.mk (hs ++ hs')) args s
        = Tests.MultiDispatcher.operator_call (MultiDispatcher.mk hs) args s)
    ∧ ((∀ (j : Nat) (hj : j < hs.length),
        (hs.get ⟨j, hj⟩).invocable (args.map Val.typeOf) = false) →
      (MultiDispatcher.mk (hs ++ hs')).operator_call args s
        = (MultiDispatcher.mk hs').operator_call args s
      ∧ Tests.MultiDispatcher.operator_call (MultiDispatcher.mk (hs ++ hs')) args s
        = Tests.MultiDispatcher.operator_call (MultiDispatcher.mk hs') args s) := by
  constructor
  · rintro ⟨j, hj, hacc⟩
    rcases MultiDispatcher.exists_first_accepting (MultiDispatcher.mk hs) _ j hj hacc
      with ⟨i, hi, hiacc, hfirst⟩
    have h := MultiDispatcher.append_left hs hs' args s i hi hiacc hfirst
    exact ⟨h.1.trans h.2.1.symm, h.2.2.1.trans h.2.2.2.symm⟩
  · intro hnone
    exact MultiDispatcher.append_right hs hs' args s hnone

/-- C21, at the handler lists of the tests `MultiDispatcherBasic` and
`MultiDispatcherNoMatch`: appending the second to the first leaves the call `(5, 3.7)` at
`8`, and with the second in front, none of whose handlers accepts `("hello", 'c')`, that
call returns the `-1` of the first. -/
theorem MultiDispatcher.append_acts_as_or_else_witness :
    (MultiDispatcher.mk ((Tests.MultiDispatcherBasic.dispatcher Unit).functors
        ++ (Tests.MultiDispatcherNoMatch.dispatcher Unit).functors)).operator_call
        [Val.int 5, Val.double 3.7] () = (Outcome.ret (Val.int 8), ())
    ∧ (MultiDispatcher.mk ((Tests.MultiDispatcherNoMatch.dispatcher Unit).functors
        ++ (Tests.MultiDispatcherBasic.dispatcher Unit).functors)).operator_call
        [Val.cstr "hello", Val.char 'c'] () = (Outcome.ret (Val.int (-1)), ()) := by
  have h1 := (MultiDispatcher.append_acts_as_or_else
    (Tests.MultiDispatcherBasic.dispatcher Unit).functors
    (Tests.MultiDispatcherNoMatch.dispatcher Unit).functors
    [Val.int 5, Val.double 3.7] ()).1 ⟨0, by decide, by rfl⟩
  have h2 := (MultiDispatcher.append_acts_as_or_else
    (Tests.MultiDispatcherNoMatch.dispatcher Unit).functors
    (Tests.MultiDispatcherBasic.dispatcher Unit).functors
    [Val.cstr "hello", Val.char 'c'] ()).2
    (by
      intro j hj
      have hj2 : j < 2 := hj
      interval_cases j <;> rfl)
  constructor
  · rw [h1.1]
    simp [MultiDispatcher.operator_call, MultiDispatcher.try_dispatch,
      Tests.MultiDispatcherBasic.dispatcher, Lambda.toHandler, Lambda.invocable,
      Lambda.bindArgs, rankAll, bindParams, Param.rank, Param.bind, conversionRank, convert,
      Val.typeOf, truncToInt_three_point_seven]
  · rw [h2.1]
    simp [MultiDispatcher.operator_call, MultiDispatcher.try_dispatch,
      Tests.MultiDispatcherBasic.dispatcher, Lambda.toHandler, Lambda.invocable,
      Lambda.bindArgs, rankAll, bindParams, Param.rank, Param.bind, conversionRank, convert,
      Val.typeOf, Ty.isArithmetic]

end MultiVariant
